import Mathlib

/-!
Verification of the chapter-detection core of the audiobooksmith repository.

The Python sources are shallowly embedded over `List Char` (ASCII model of
Python strings: the documents handled by the pipeline are plain extracted
text, and every character class used by the sources — `[a-z]`, `[A-Z]`,
`\d`, `\s` — is modelled by its ASCII meaning, with `re.IGNORECASE`
modelled as ASCII case folding).

Embedded sources:
  - smart_chapter_splitter_v7_perfect.py   (class SmartChapterSplitterV7)
  - audiobook_processor_v13_1_universal.py (split_camel_case_v7)
  - hybrid_chapter_splitter_production.py  (class HybridChapterSplitter)
  - simple_chapter_detector.py             (split_chapters_simple)
  - audiobook_processor_v9_ai_chapters.py  (numbering / fallback split)
  - audiobook_processor_v13_production.py  (SmartChapterSplitterV7.extract_toc)
-/

namespace ABS

/-- Python strings are modelled as lists of characters. -/
abbrev Str := List Char

/-- ASCII model of the regex class `[A-Z]` / of `str.isupper()` per character. -/
def isUpperA (c : Char) : Bool := 'A' ≤ c && c ≤ 'Z'

/-- ASCII model of the regex class `[a-z]` / of `str.islower()` per character. -/
def isLowerA (c : Char) : Bool := 'a' ≤ c && c ≤ 'z'

/-- ASCII letter (what `[a-z]` or `[A-Z]` matches under `re.IGNORECASE`). -/
def isLetterA (c : Char) : Bool := isUpperA c || isLowerA c

/-- ASCII model of the regex class `\d`. -/
def isDigitA (c : Char) : Bool := '0' ≤ c && c ≤ '9'

/-- ASCII model of the regex class `\s` (Python: space, tab, newline,
carriage return, vertical tab, form feed). -/
def isWsA (c : Char) : Bool :=
  c == ' ' || c == '\t' || c == '\n' || c == '\r' || c == '\x0b' || c == '\x0c'

/-- ASCII model of `str.lower()` per character. -/
def lowerA (c : Char) : Char :=
  if isUpperA c then Char.ofNat (c.toNat + 32) else c

/-- The text matched by `[a-z]` in a pattern compiled with (`ci` = true) or
without (`ci` = false) `re.IGNORECASE`. -/
def lowerClass (ci : Bool) (c : Char) : Bool :=
  if ci then isLetterA c else isLowerA c

/-- The text matched by `[A-Z]` in a pattern compiled with or without
`re.IGNORECASE`. -/
def upperClass (ci : Bool) (c : Char) : Bool :=
  if ci then isLetterA c else isUpperA c

/-- Does the literal pattern `pat` match at the front of `l`
(case-insensitively when `ci`)? Models a `re.escape`d literal in a pattern. -/
def matchLit (ci : Bool) (pat l : Str) : Bool :=
  match pat, l with
  | [], _ => true
  | _ :: _, [] => false
  | p :: ps, c :: cs =>
    (if ci then lowerA p == lowerA c else p == c) && matchLit ci ps cs

/-- Split `t` into its first `n` characters, the following character, and
the rest; `none` when `t` has at most `n` characters. -/
def splitAt3 (n : Nat) (t : Str) : Option (Str × Char × Str) :=
  match t.drop n with
  | [] => none
  | c :: rest => some (t.take n, c, rest)

/-- `re.sub(r'([A-Z])([A-Z][a-z])', r'\1 \2', text)` — Step 0 of both
camel-case splitters: insert a space between an uppercase letter and a
following uppercase+lowercase pair; scanning resumes after each match. -/
def step0 : Str → Str
  | c1 :: c2 :: c3 :: rest =>
    if isUpperA c1 && isUpperA c2 && isLowerA c3 then
      c1 :: ' ' :: c2 :: c3 :: step0 rest
    else c1 :: step0 (c2 :: c3 :: rest)
  | l => l

/-- `re.sub(r'([a-z])([A-Z])', r'\1 \2', text)` — the generic camelCase
boundary pass (Step 3 of both splitters). -/
def step3 : Str → Str
  | c1 :: c2 :: rest =>
    if isLowerA c1 && isUpperA c2 then c1 :: ' ' :: c2 :: step3 rest
    else c1 :: step3 (c2 :: rest)
  | l => l

/-- Step 0.5 of both splitters:
`if text.lower().startswith('into') and len(text) > 4 and text[4].isupper():
text = text[:4] + ' ' + text[4:]`. -/
def intoFix (l : Str) : Str :=
  match l with
  | c1 :: c2 :: c3 :: c4 :: c5 :: rest =>
    if matchLit true "into".toList [c1, c2, c3, c4] && isUpperA c5 then
      c1 :: c2 :: c3 :: c4 :: ' ' :: c5 :: rest
    else c1 :: c2 :: c3 :: c4 :: c5 :: rest
  | l => l

/-- One substitution pass of shape
`re.sub(r'([a-z])(MID)([A-Z])', r'\1 OUT \3', text)` where OUT is the
literal `repl` (the V7 passes) or the matched text itself (`keepMatched`,
modelling the backreference `\2` of v13.1). `ci` models `re.IGNORECASE`
on the whole pattern (which also makes `[a-z]` and `[A-Z]` match any
ASCII letter). Scanning resumes after the third matched group, exactly as
`re.sub` does. Fuel-driven so that it evaluates by kernel reduction; the
wrapper `subConn` supplies `l.length` fuel, enough because every step
consumes at least one character. -/
def subConnF (ci : Bool) (mid repl : Str) (keepMatched : Bool) :
    Nat → Str → Str
  | 0, l => l
  | _ + 1, [] => []
  | fuel + 1, c :: t =>
    match splitAt3 mid.length t with
    | some (m, c3, rest) =>
      if lowerClass ci c && matchLit ci mid m && upperClass ci c3 then
        c :: ' ' ::
          ((if keepMatched then m else repl) ++
            ' ' :: c3 :: subConnF ci mid repl keepMatched fuel rest)
      else c :: subConnF ci mid repl keepMatched fuel t
    | none => c :: subConnF ci mid repl keepMatched fuel t

/-- Wrapper for `subConnF` with sufficient fuel. -/
def subConn (ci : Bool) (mid repl : Str) (keepMatched : Bool) (l : Str) :
    Str :=
  subConnF ci mid repl keepMatched l.length l

/-- `re.sub('(?i)MID', 'REPL', text)` — plain case-insensitive literal
replacement (the compound-connector pass of v13.1, which has no
surrounding letter groups). -/
def subLitF (mid repl : Str) : Nat → Str → Str
  | 0, l => l
  | _ + 1, [] => []
  | fuel + 1, c :: t =>
    if matchLit true mid (c :: t) then
      repl ++ subLitF mid repl fuel ((c :: t).drop mid.length)
    else c :: subLitF mid repl fuel t

/-- Wrapper for `subLitF` with sufficient fuel. -/
def subLit (mid repl : Str) (l : Str) : Str :=
  subLitF mid repl l.length l

/-- `re.sub(r'\s+', ' ', text)` — collapse each whitespace run to a single
space. -/
def collapseWsF : Nat → Str → Str
  | 0, l => l
  | _ + 1, [] => []
  | fuel + 1, c :: t =>
    if isWsA c then ' ' :: collapseWsF fuel (t.dropWhile isWsA)
    else c :: collapseWsF fuel t

/-- Wrapper for `collapseWsF` with sufficient fuel. -/
def collapseWs (l : Str) : Str := collapseWsF l.length l

/-- Python `str.strip()` (ASCII whitespace model). -/
def stripA (l : Str) : Str :=
  ((l.dropWhile isWsA).reverse.dropWhile isWsA).reverse

/-- The compound-connector table of
`SmartChapterSplitterV7.split_camel_case_perfect` (Step 1). -/
def compoundConnectorsV7 : List (Str × Str) :=
  [("ofthe".toList, "of the".toList), ("inthe".toList, "in the".toList),
   ("andthe".toList, "and the".toList), ("forthe".toList, "for the".toList),
   ("tothe".toList, "to the".toList), ("atthe".toList, "at the".toList),
   ("onthe".toList, "on the".toList), ("uponthe".toList, "upon the".toList)]

/-- The single-connector table of
`SmartChapterSplitterV7.split_camel_case_perfect` (Step 2). -/
def connectorsV7 : List Str :=
  ["of".toList, "the".toList, "and".toList, "for".toList, "in".toList,
   "a".toList, "to".toList, "at".toList, "on".toList, "upon".toList]

/-- `SmartChapterSplitterV7.split_camel_case_perfect`
(smart_chapter_splitter_v7_perfect.py, lines 23-67): Step 0 uppercase
pairs, Step 0.5 the `into` fix, Step 1 compound connectors (IGNORECASE,
literal lowercase replacement), Step 2 single connectors
(case-sensitive), Step 3 generic camelCase boundaries. -/
def split_camel_case_perfect (l : Str) : Str :=
  let t0 := step0 l
  let t1 := intoFix t0
  let t2 := compoundConnectorsV7.foldl (fun t p => subConn true p.1 p.2 false t) t1
  let t3 := connectorsV7.foldl (fun t c => subConn false c c false t) t2
  step3 t3

/-- The compound-connector table of `split_camel_case_v7`
(audiobook_processor_v13_1_universal.py). -/
def compoundConnectorsV13 : List (Str × Str) :=
  [("ofthe".toList, "of the".toList), ("inthe".toList, "in the".toList),
   ("onthe".toList, "on the".toList), ("tothe".toList, "to the".toList),
   ("forthe".toList, "for the".toList), ("andthe".toList, "and the".toList),
   ("ofmy".toList, "of my".toList), ("inmy".toList, "in my".toList),
   ("tomy".toList, "to my".toList)]

/-- The single-connector table of `split_camel_case_v7`. -/
def connectorsV13 : List Str :=
  ["of".toList, "the".toList, "and".toList, "for".toList, "in".toList,
   "a".toList, "to".toList, "upon".toList, "with".toList]

/-- `split_camel_case_v7` (audiobook_processor_v13_1_universal.py, lines
65-104). Differences from the V7 original: the compound pass is a plain
`(?i)` literal substitution with no surrounding letter groups, the
single-connector pass is compiled with `re.IGNORECASE` and keeps the
matched text via `\2`, and a final `\s+`-collapse-and-strip pass runs. -/
def split_camel_case_v7 (l : Str) : Str :=
  if l = [] then l
  else
    let t0 := step0 l
    let t1 := intoFix t0
    let t2 := compoundConnectorsV13.foldl (fun t p => subLit p.1 p.2 t) t1
    let t3 := connectorsV13.foldl (fun t c => subConn true c [] true t) t2
    let t4 := step3 t3
    stripA (collapseWs t4)

/-- `SmartChapterSplitterV7.normalize_for_comparison`: lowercase, collapse
whitespace, strip. -/
def normalize_for_comparison (l : Str) : Str :=
  stripA (collapseWs (l.map lowerA))

/-! ### Character-level facts used by the content-preservation proofs -/

theorem char_eq_iff_toNat {a b : Char} : a = b ↔ a.toNat = b.toNat := by
  rw [Char.ext_iff]
  exact ⟨fun h => congrArg UInt32.toNat h, fun h => UInt32.ext h⟩

theorem char_le_iff_toNat {a b : Char} : a ≤ b ↔ a.toNat ≤ b.toNat := by
  rw [Char.le_def]; exact ⟨fun h => h, fun h => h⟩

theorem isUpperA_iff {c : Char} : isUpperA c = true ↔ 65 ≤ c.toNat ∧ c.toNat ≤ 90 := by
  simp only [isUpperA, Bool.and_eq_true, decide_eq_true_eq, char_le_iff_toNat]
  constructor
  · exact fun h => ⟨h.1, h.2⟩
  · exact fun h => ⟨h.1, h.2⟩

theorem isLowerA_iff {c : Char} : isLowerA c = true ↔ 97 ≤ c.toNat ∧ c.toNat ≤ 122 := by
  simp only [isLowerA, Bool.and_eq_true, decide_eq_true_eq, char_le_iff_toNat]
  constructor
  · exact fun h => ⟨h.1, h.2⟩
  · exact fun h => ⟨h.1, h.2⟩

theorem isWsA_iff {c : Char} :
    isWsA c = true ↔
      c.toNat = 32 ∨ c.toNat = 9 ∨ c.toNat = 10 ∨ c.toNat = 13 ∨
        c.toNat = 11 ∨ c.toNat = 12 := by
  simp only [isWsA, Bool.or_eq_true, beq_iff_eq, char_eq_iff_toNat,
    show (' ').toNat = 32 from rfl, show ('\t').toNat = 9 from rfl,
    show ('\n').toNat = 10 from rfl, show ('\r').toNat = 13 from rfl,
    show ('\x0b').toNat = 11 from rfl, show ('\x0c').toNat = 12 from rfl]
  tauto

theorem toNat_lowerA_of_upper {c : Char} (h : isUpperA c = true) :
    (lowerA c).toNat = c.toNat + 32 := by
  have hb := isUpperA_iff.mp h
  have hv : Nat.isValidChar (c.toNat + 32) := Or.inl (by omega)
  simp only [lowerA, h, if_true]
  unfold Char.ofNat
  rw [dif_pos hv]
  rfl

theorem isWsA_lowerA (c : Char) : isWsA (lowerA c) = isWsA c := by
  by_cases h : isUpperA c = true
  · have h1 := isUpperA_iff.mp h
    have h2 := toNat_lowerA_of_upper h
    have e1 : isWsA (lowerA c) = false := by
      rw [Bool.eq_false_iff]
      intro hw
      have := isWsA_iff.mp hw
      omega
    have e2 : isWsA c = false := by
      rw [Bool.eq_false_iff]
      intro hw
      have := isWsA_iff.mp hw
      omega
    rw [e1, e2]
  · have : lowerA c = c := by simp [lowerA, h]
    rw [this]

theorem isWsA_of_letter {c : Char} (h : isLetterA c = true) : isWsA c = false := by
  rw [Bool.eq_false_iff]
  intro hw
  have hws := isWsA_iff.mp hw
  rcases Bool.or_eq_true _ _ |>.mp h with hu | hl
  · have := isUpperA_iff.mp hu; omega
  · have := isLowerA_iff.mp hl; omega

theorem isWsA_of_lowerClass {ci : Bool} {c : Char} (h : lowerClass ci c = true) :
    isWsA c = false := by
  apply isWsA_of_letter
  cases ci with
  | true => simpa [lowerClass] using h
  | false =>
    simp only [lowerClass, Bool.false_eq_true, if_false] at h
    simp [isLetterA, h]

theorem isWsA_of_upperClass {ci : Bool} {c : Char} (h : upperClass ci c = true) :
    isWsA c = false := by
  apply isWsA_of_letter
  cases ci with
  | true => simpa [upperClass] using h
  | false =>
    simp only [upperClass, Bool.false_eq_true, if_false] at h
    simp [isLetterA, h]

/-! ### The canonical content of a string: lowercase it, delete whitespace -/

/-- Delete every whitespace character. -/
def despace (l : Str) : Str := l.filter (fun c => !isWsA c)

/-- The claim C10 canonical form: lowercase the string, then delete all
whitespace. -/
def canon (l : Str) : Str := despace (l.map lowerA)

theorem canon_nil : canon [] = [] := rfl

theorem canon_cons (c : Char) (l : Str) :
    canon (c :: l) = if isWsA c then canon l else lowerA c :: canon l := by
  simp only [canon, despace, List.map_cons, List.filter_cons, isWsA_lowerA]
  by_cases h : isWsA c
  · simp [h]
  · simp [h]

theorem canon_append (a b : Str) : canon (a ++ b) = canon a ++ canon b := by
  simp [canon, despace, List.filter_append]

theorem canon_space_cons (l : Str) : canon (' ' :: l) = canon l := by
  rw [canon_cons]; norm_num [isWsA]

theorem canon_cons_of_not_ws {c : Char} (h : isWsA c = false) (l : Str) :
    canon (c :: l) = lowerA c :: canon l := by
  rw [canon_cons, h]; simp

theorem canon_dropWhile_ws (l : Str) : canon (l.dropWhile isWsA) = canon l := by
  induction l with
  | nil => rfl
  | cons c t ih =>
    rw [List.dropWhile_cons]
    by_cases h : isWsA c
    · rw [if_pos h, ih, canon_cons, if_pos h]
    · rw [if_neg h]

theorem canon_reverse (l : Str) : canon l.reverse = (canon l).reverse := by
  simp [canon, despace, List.filter_reverse, List.map_reverse]

theorem canon_stripA (l : Str) : canon (stripA l) = canon l := by
  unfold stripA
  rw [canon_reverse, canon_dropWhile_ws, canon_reverse, List.reverse_reverse,
    canon_dropWhile_ws]

theorem canon_collapseWsF : ∀ (fuel : Nat) (l : Str),
    canon (collapseWsF fuel l) = canon l := by
  intro fuel
  induction fuel with
  | zero => intro l; rfl
  | succ n ih =>
    intro l
    match l with
    | [] => rfl
    | c :: t =>
      rw [collapseWsF]
      by_cases h : isWsA c
      · rw [if_pos h, canon_space_cons, ih, canon_dropWhile_ws, canon_cons,
          if_pos h]
      · rw [if_neg h, canon_cons, canon_cons, ih]

theorem canon_collapseWs (l : Str) : canon (collapseWs l) = canon l :=
  canon_collapseWsF l.length l

theorem canon_step0 (l : Str) : canon (step0 l) = canon l := by
  induction l using step0.induct with
  | case1 c1 c2 c3 rest h ih =>
    rw [step0, if_pos h]
    have hp := h
    rw [Bool.and_eq_true, Bool.and_eq_true] at hp
    have h1 : isWsA c1 = false := isWsA_of_letter (by simp [isLetterA, hp.1.1])
    have h2 : isWsA c2 = false := isWsA_of_letter (by simp [isLetterA, hp.1.2])
    have h3 : isWsA c3 = false :=
      isWsA_of_letter (by simp [isLetterA, hp.2])
    rw [canon_cons_of_not_ws h1, canon_space_cons, canon_cons_of_not_ws h2,
      canon_cons_of_not_ws h3, ih, canon_cons_of_not_ws h1,
      canon_cons_of_not_ws h2, canon_cons_of_not_ws h3]
  | case2 c1 c2 c3 rest h ih =>
    rw [step0, if_neg h, canon_cons, canon_cons, ih]
  | case3 l h =>
    have : step0 l = l := by
      rw [step0.eq_def]
      split
      · exact (h _ _ _ _ rfl).elim
      · rfl
    rw [this]

theorem canon_step3 (l : Str) : canon (step3 l) = canon l := by
  induction l using step3.induct with
  | case1 c1 c2 rest h ih =>
    rw [step3, if_pos h]
    have hp := h
    rw [Bool.and_eq_true] at hp
    have h1 : isWsA c1 = false := isWsA_of_letter (by simp [isLetterA, hp.1])
    have h2 : isWsA c2 = false := isWsA_of_letter (by simp [isLetterA, hp.2])
    rw [canon_cons_of_not_ws h1, canon_space_cons, canon_cons_of_not_ws h2,
      ih, canon_cons_of_not_ws h1, canon_cons_of_not_ws h2]
  | case2 c1 c2 rest h ih =>
    rw [step3, if_neg h, canon_cons, canon_cons, ih]
  | case3 l h =>
    have : step3 l = l := by
      rw [step3.eq_def]
      split
      · exact (h _ _ _ rfl).elim
      · rfl
    rw [this]

theorem canon_intoFix (l : Str) : canon (intoFix l) = canon l := by
  rw [intoFix.eq_def]
  split
  · split
    · simp [canon_cons, show isWsA ' ' = true from rfl]
    · rfl
  · rfl

theorem splitAt3_eq {n : Nat} {t m : Str} {c3 : Char} {rest : Str}
    (h : splitAt3 n t = some (m, c3, rest)) :
    t = m ++ c3 :: rest ∧ m.length = n := by
  unfold splitAt3 at h
  cases hd : t.drop n with
  | nil => rw [hd] at h; exact absurd h (by simp)
  | cons c r =>
    rw [hd] at h
    simp only [Option.some.injEq, Prod.mk.injEq] at h
    obtain ⟨hm, hc, hr⟩ := h
    have hlen : n < t.length := by
      by_contra hcon
      push_neg at hcon
      rw [List.drop_eq_nil_of_le hcon] at hd
      exact absurd hd (by simp)
    constructor
    · rw [← hm, ← hc, ← hr, ← hd, List.take_append_drop]
    · rw [← hm, List.length_take]
      omega

theorem canon_take_of_matchLit {ci : Bool} {mid l : Str}
    (h : matchLit ci mid l = true) : canon (l.take mid.length) = canon mid := by
  induction mid generalizing l with
  | nil => simp [canon_nil]
  | cons p ps ih =>
    match l with
    | [] => exact absurd h (by simp [matchLit])
    | c :: cs =>
      rw [matchLit, Bool.and_eq_true] at h
      have hrest := ih h.2
      have hhead : lowerA c = lowerA p := by
        cases ci with
        | true => exact (beq_iff_eq.mp h.1).symm
        | false => rw [beq_iff_eq.mp h.1]
      have hws : isWsA c = isWsA p := by
        rw [← isWsA_lowerA c, hhead, isWsA_lowerA]
      simp only [List.length_cons, List.take_succ_cons]
      rw [canon_cons, canon_cons, hws, hhead, hrest]

theorem canon_subConnF {ci : Bool} {mid repl : Str} {keep : Bool}
    (hr : keep = true ∨ canon repl = canon mid) :
    ∀ (fuel : Nat) (l : Str),
      canon (subConnF ci mid repl keep fuel l) = canon l := by
  intro fuel
  induction fuel with
  | zero => intro l; rfl
  | succ n ih =>
    intro l
    match l with
    | [] => rfl
    | c :: t =>
      rw [subConnF]
      cases hs : splitAt3 mid.length t with
      | none => rw [canon_cons, canon_cons, ih]
      | some p =>
        obtain ⟨m, c3, rest⟩ := p
        dsimp only
        by_cases hg :
            (lowerClass ci c && matchLit ci mid m && upperClass ci c3) = true
        · rw [if_pos hg]
          rw [Bool.and_eq_true, Bool.and_eq_true] at hg
          obtain ⟨⟨hc, hm⟩, hc3⟩ := hg
          obtain ⟨ht, hlen⟩ := splitAt3_eq hs
          have hcws : isWsA c = false := isWsA_of_lowerClass hc
          have hc3ws : isWsA c3 = false := isWsA_of_upperClass hc3
          have hmid : canon (if keep then m else repl) = canon m := by
            have hmcanon : canon m = canon mid := by
              have := canon_take_of_matchLit hm
              rwa [← hlen, List.take_length] at this
            cases keep with
            | true => rfl
            | false =>
              rw [if_neg (by simp)]
              rcases hr with hk | hrep
              · exact absurd hk (by simp)
              · rw [hrep, hmcanon]
          rw [ht, canon_cons_of_not_ws hcws, canon_space_cons, canon_append,
            hmid, canon_space_cons, canon_cons_of_not_ws hc3ws, ih,
            canon_cons_of_not_ws hcws, canon_append,
            canon_cons_of_not_ws hc3ws]
        · rw [if_neg hg, canon_cons, canon_cons, ih]

theorem canon_subConn {ci : Bool} {mid repl : Str} {keep : Bool}
    (hr : keep = true ∨ canon repl = canon mid) (l : Str) :
    canon (subConn ci mid repl keep l) = canon l :=
  canon_subConnF hr l.length l

theorem canon_subLitF {mid repl : Str} (hr : canon repl = canon mid) :
    ∀ (fuel : Nat) (l : Str), canon (subLitF mid repl fuel l) = canon l := by
  intro fuel
  induction fuel with
  | zero => intro l; rfl
  | succ n ih =>
    intro l
    match l with
    | [] => rfl
    | c :: t =>
      rw [subLitF]
      by_cases hm : matchLit true mid (c :: t) = true
      · rw [if_pos hm]
        rw [canon_append, ih, hr, ← canon_take_of_matchLit hm,
          ← canon_append, List.take_append_drop]
      · rw [if_neg hm, canon_cons, canon_cons, ih]

theorem canon_subLit {mid repl : Str} (hr : canon repl = canon mid) (l : Str) :
    canon (subLit mid repl l) = canon l :=
  canon_subLitF hr l.length l

theorem canon_foldl_subConn (ci : Bool) (keep : Bool) (tbl : List (Str × Str))
    (hok : ∀ p ∈ tbl, keep = true ∨ canon p.2 = canon p.1) (l : Str) :
    canon (tbl.foldl (fun t p => subConn ci p.1 p.2 keep t) l) = canon l := by
  induction tbl generalizing l with
  | nil => rfl
  | cons p ps ih =>
    rw [List.foldl_cons, ih fun q hq => hok q (List.mem_cons_of_mem p hq),
      canon_subConn (hok p (List.mem_cons_self p _))]

theorem canon_foldl_subLit (tbl : List (Str × Str))
    (hok : ∀ p ∈ tbl, canon p.2 = canon p.1) (l : Str) :
    canon (tbl.foldl (fun t p => subLit p.1 p.2 t) l) = canon l := by
  induction tbl generalizing l with
  | nil => rfl
  | cons p ps ih =>
    rw [List.foldl_cons, ih fun q hq => hok q (List.mem_cons_of_mem p hq),
      canon_subLit (hok p (List.mem_cons_self p _))]

theorem canon_foldl_conn (ci : Bool) (tbl : List Str) (l : Str) :
    canon (tbl.foldl (fun t c => subConn ci c c false t) l) = canon l := by
  induction tbl generalizing l with
  | nil => rfl
  | cons p ps ih =>
    rw [List.foldl_cons, ih, canon_subConn (Or.inr rfl)]

theorem canon_foldl_connKeep (ci : Bool) (tbl : List Str) (l : Str) :
    canon (tbl.foldl (fun t c => subConn ci c [] true t) l) = canon l := by
  induction tbl generalizing l with
  | nil => rfl
  | cons p ps ih =>
    rw [List.foldl_cons, ih, canon_subConn (Or.inl rfl)]

theorem canon_split_camel_case_perfect (l : Str) :
    canon (split_camel_case_perfect l) = canon l := by
  unfold split_camel_case_perfect
  rw [canon_step3, canon_foldl_conn,
    canon_foldl_subConn true false compoundConnectorsV7 (by decide),
    canon_intoFix, canon_step0]

theorem canon_split_camel_case_v7 (l : Str) :
    canon (split_camel_case_v7 l) = canon l := by
  unfold split_camel_case_v7
  by_cases h : l = []
  · rw [if_pos h]
  · rw [if_neg h, canon_stripA, canon_collapseWs, canon_step3,
      canon_foldl_connKeep, canon_foldl_subLit compoundConnectorsV13 (by decide),
      canon_intoFix, canon_step0]

/-! ### General Python string helpers -/

/-- Python slice `text[a:b]` (for `0 ≤ a ≤ b`; both ends clamped). -/
def slice (a b : Nat) (text : Str) : Str := (text.drop a).take (b - a)

/-- Python slice `text[a:]`. -/
def sliceFrom (a : Nat) (text : Str) : Str := text.drop a

/-- Python `str.split()` with no separator: split on whitespace runs,
dropping empty fields. Fuel-driven (`pySplit` supplies enough). -/
def pySplitF : Nat → Str → List Str
  | 0, _ => []
  | fuel + 1, l =>
    match l.dropWhile isWsA with
    | [] => []
    | c :: t =>
      let w := (c :: t).takeWhile (fun d => !isWsA d)
      w :: pySplitF fuel ((c :: t).drop w.length)

/-- Python `str.split()` with no separator. -/
def pySplit (l : Str) : List Str := pySplitF (l.length + 1) l

/-- `len(text.split())` — the word count used throughout the sources. -/
def wordCount (l : Str) : Nat := (pySplit l).length

/-- First occurrence of the literal `pat` in `l` (Python `str.find`,
non-negative results only). -/
def findSub (pat : Str) : Str → Option Nat
  | [] => if pat.isEmpty then some 0 else none
  | c :: rest =>
    if matchLit false pat (c :: rest) then some 0
    else (findSub pat rest).map (· + 1)

/-- Python `needle in haystack.lower()` for a lowercase needle. -/
def containsLowerSub (pat s : Str) : Bool := (findSub pat (s.map lowerA)).isSome

/-- Numeric value of a digit string (`int(...)` on the match of `\d+`). -/
def digitsToNat (d : Str) : Nat := d.foldl (fun n c => 10 * n + (c.toNat - 48)) 0

/-- Python `f"{n:02d}"`: decimal digits, zero-padded to width 2. -/
def pad2 (n : Nat) : Str :=
  if n < 10 then '0' :: Nat.toDigits 10 n else Nat.toDigits 10 n

/-- Python `str.isupper()` (ASCII model): at least one cased character and
no lowercase character. -/
def pyIsUpper (l : Str) : Bool := l.any isUpperA && !(l.any isLowerA)

/-! ### simple_chapter_detector.py — split_chapters_simple (lines 75-109) -/

/-- The chapter number assigned by `split_chapters_simple` to the entry with
list index `i` and the given title: `"00"` when the lowered title contains
`"prologue"`, `"900"` when it contains `"epilogue"`, else the title's
leading integer (`re.search(r'^\d+', title)`) zero-padded, else the index
`i` zero-padded. -/
def chapterNumberSimple (i : Nat) (title : Str) : Str :=
  if containsLowerSub "prologue".toList title then "00".toList
  else if containsLowerSub "epilogue".toList title then "900".toList
  else
    let d := title.takeWhile isDigitA
    if d = [] then pad2 i else pad2 (digitsToNat d)

/-- The per-entry loop of `split_chapters_simple`: spans run from each
detected position to the next one (end of text for the last), contents are
stripped slices. -/
def splitChaptersSimpleGo (text : Str) :
    Nat → List (Nat × Str) → List (Str × Str × Str × Nat)
  | _, [] => []
  | i, (pos, title) :: rest =>
    let endPos := match rest.head? with
      | some (q, _) => q
      | none => text.length
    let content := stripA (slice pos endPos text)
    let wc := wordCount content
    (chapterNumberSimple i title, title, content, wc) ::
      splitChaptersSimpleGo text (i + 1) rest

/-- `split_chapters_simple(text, chapters)` (simple_chapter_detector.py,
lines 75-109): on an empty detection list it returns the single synthetic
`("00", "Full Book", text, len(text.split()))` chapter; otherwise it emits
one `(number, title, content, word_count)` tuple per detected position. -/
def split_chapters_simple (text : Str) (chapters : List (Nat × Str)) :
    List (Str × Str × Str × Nat) :=
  if chapters = [] then
    [("00".toList, "Full Book".toList, text, wordCount text)]
  else splitChaptersSimpleGo text 0 chapters

/-! ### audiobook_processor_v9_ai_chapters.py — numbering and splitting -/

/-- The sentinel-numbering loop at the end of
`AudiobookProcessorV9.detect_chapters_with_ai` (lines 335-355): the
argument is the position-sorted `chapter_data` as (title, position) pairs
and `k` is the running `regular_chapter_num` (initially 1); any title
containing "prologue" (case-insensitive) gets number "00", any containing
"epilogue" gets "900", every other chapter gets the next sequential
number, zero-padded to two digits. -/
def assign_numbers_v9 : Nat → List (Str × Nat) → List (Str × Str × Nat)
  | _, [] => []
  | k, (title, posn) :: rest =>
    if containsLowerSub "prologue".toList title then
      ("00".toList, title, posn) :: assign_numbers_v9 k rest
    else if containsLowerSub "epilogue".toList title then
      ("900".toList, title, posn) :: assign_numbers_v9 k rest
    else (pad2 k, title, posn) :: assign_numbers_v9 (k + 1) rest

/-- `detect_chapters_with_ai` numbering stage: sort the located chapters by
position, then assign numbers with `regular_chapter_num = 1`. -/
def number_chapters_v9 (chapter_data : List (Str × Nat)) :
    List (Str × Str × Nat) :=
  assign_numbers_v9 1 (List.insertionSort (fun a b => a.2 ≤ b.2) chapter_data)

/-- One result row of `AudiobookProcessorV9.split_into_chapters`; the
`content` field models the text written to the chapter file. -/
structure V9Chapter where
  number : Str
  title : Str
  content : Str
  word_count : Nat
  deriving DecidableEq, Repr

/-- The per-chapter loop of `split_into_chapters`: spans run from each
chapter's position to the next one (end of text for the last); the file
receives the stripped slice. -/
def splitIntoChaptersV9Go (text : Str) :
    List (Str × Str × Nat) → List V9Chapter
  | [] => []
  | (num, title, pos) :: rest =>
    let endPos := match rest.head? with
      | some (_, _, q) => q
      | none => text.length
    let content := stripA (slice pos endPos text)
    ⟨num, title, content, wordCount content⟩ :: splitIntoChaptersV9Go text rest

/-- `AudiobookProcessorV9.split_into_chapters(text, chapter_data)` (lines
386-435): with no detected chapters it returns the single synthetic
chapter number "00", title "Full Book", whole text as content, word count
`len(text.split())`; otherwise one chapter per entry. -/
def split_into_chapters_v9 (text : Str) (chapter_data : List (Str × Str × Nat)) :
    List V9Chapter :=
  if chapter_data = [] then
    [⟨"00".toList, "Full Book".toList, text, wordCount text⟩]
  else splitIntoChaptersV9Go text chapter_data

/-! ### smart_chapter_splitter_v7_perfect.py — the V7 splitter

The body-location strategies are regex searches.  They are embedded with a
small explicit matcher per pattern; where the patterns backtrack
(`\s*\n\s*`), the search explores the candidate split points in exactly
the order Python's engine does (greedy, longest first), so the first
success — and hence the match end — coincides. -/

/-- Apply matcher `p` after dropping `k` characters, adding `k` to the
consumed length. -/
def tryAfter {α : Type} (p : Str → Option (Nat × α)) (l : Str) (k : Nat) :
    Option (Nat × α) :=
  match p (l.drop k) with
  | some (n, x) => some (k + n, x)
  | none => none

/-- Inner backtracking loop of `\s*\n\s*` + `p`: the mandatory `\n` sits at
index `a` of `l`; try consuming `b, b-1, ..., 0` further whitespace
characters after it (the second greedy `\s*`). -/
def gapSearchB {α : Type} (p : Str → Option (Nat × α)) (l : Str) (a : Nat) :
    Nat → Option (Nat × α)
  | 0 => tryAfter p l (a + 1)
  | b + 1 =>
    match tryAfter p l (a + 1 + (b + 1)) with
    | some r => some r
    | none => gapSearchB p l a b

/-- Outer backtracking loop of `\s*\n\s*` + `p`: try newline positions
`a, a-1, ..., 0` (the first greedy `\s*` backtracks from the longest
whitespace prefix); `m` is the length of the leading whitespace run. -/
def gapSearchA {α : Type} (p : Str → Option (Nat × α)) (l : Str) (m : Nat) :
    Nat → Option (Nat × α)
  | 0 =>
    if l.get? 0 = some '\n' then gapSearchB p l 0 (m - 1) else none
  | a + 1 =>
    match
      (if l.get? (a + 1) = some '\n' then gapSearchB p l (a + 1) (m - (a + 1) - 1)
       else none) with
    | some r => some r
    | none => gapSearchA p l m a

/-- Match `\s*\n\s*` followed by `p` at the start of `l`: the consumed
whitespace lies inside the maximal leading whitespace run and must include
a newline.  Candidates are explored in Python's backtracking order. -/
def matchAfterGap {α : Type} (p : Str → Option (Nat × α)) (l : Str) :
    Option (Nat × α) :=
  let m := (l.takeWhile isWsA).length
  if m = 0 then none else gapSearchA p l m (m - 1)

/-- Literal title matcher: `re.escape(title)` under IGNORECASE. -/
def pLit (pat : Str) (l : Str) : Option (Nat × Unit) :=
  if matchLit true pat l then some (pat.length, ()) else none

/-- `([^\n]+)` capture matcher (strategy 2): greedy to the end of the
line, at least one character; the payload is the captured text. -/
def pLine (l : Str) : Option (Nat × Str) :=
  let g := l.takeWhile (fun c => !(c == '\n'))
  if g = [] then none else some (g.length, g)

/-- Flexible-boundary title matcher (strategy 3): the title's words joined
by `\s+`.  The words come from `str.split()`, so they are nonempty and
whitespace-free, which makes each greedy `\s+` run forced. -/
def pWords : List Str → Str → Option (Nat × Unit)
  | [], _ => some (0, ())
  | [w], l => if matchLit true w l then some (w.length, ()) else none
  | w :: w2 :: ws, l =>
    if matchLit true w l then
      let rest := l.drop w.length
      let k := (rest.takeWhile isWsA).length
      if k = 0 then none
      else
        match pWords (w2 :: ws) (rest.drop k) with
        | some (n, x) => some (w.length + k + n, x)
        | none => none
    else none

/-- `{number}\s*\n\s*` followed by `p` — the core of strategies 1-3 after
the optional page-number prefix (`number` is a digit string, so IGNORECASE
is irrelevant to it). -/
def pNumGap {α : Type} (num : Str) (p : Str → Option (Nat × α)) (l : Str) :
    Option (Nat × α) :=
  if matchLit false num l then
    match matchAfterGap p (l.drop num.length) with
    | some (n, x) => some (num.length + n, x)
    | none => none
  else none

/-- Match `(?:\d+\s*\n\s*)?{number}\s*\n\s*` + `p` at the start of `l`.
The greedy optional group is tried first, as the engine does; inside it
the greedy `\d+` can only take the full leading digit run, since giving a
digit back would place a digit where `\s*\n` needs whitespace.  Returns
the total matched length and `p`'s payload. -/
def matchStrat {α : Type} (num : Str) (p : Str → Option (Nat × α)) (l : Str) :
    Option (Nat × α) :=
  let d := (l.takeWhile isDigitA).length
  let present : Option (Nat × α) :=
    if d = 0 then none
    else
      match matchAfterGap (pNumGap num p) (l.drop d) with
      | some (n, x) => some (d + n, x)
      | none => none
  match present with
  | some r => some r
  | none => pNumGap num p l

/-- `SmartChapterSplitterV7.is_page_header(text_after_number)` (lines
124-142): strip the argument, take its first line, strip that; empty →
False; otherwise count uppercase and lowercase characters and test
`u / (u + l + 0.001) > 0.7`.  For the counts that can arise (at most 100)
this float test is exactly `0 < u ∧ 7l < 3u`: equality of the quotient
with 0.7 would require `3000u = 7000l + 7`, impossible modulo 1000, the
minimum gap around 0.7 is about 5e-4, and double rounding error is below
1e-15. -/
def is_page_header (text_after_number : Str) : Bool :=
  let first_line :=
    stripA ((stripA text_after_number).takeWhile (fun c => !(c == '\n')))
  if first_line = [] then false
  else
    let u := first_line.countP isUpperA
    let lo := first_line.countP isLowerA
    decide (0 < u) && decide (7 * lo < 3 * u)

/-- The `SmartChapterSplitterV7` instance state: the text, the minimum
chapter length (default 500) and `toc_end`, which `__init__` sets to 3000
("First 3k chars for TOC extraction"). -/
structure SmartChapterSplitterV7 where
  text : Str
  min_chapter_length : Nat := 500
  toc_end : Nat := 3000

/-- A TOC entry dict built by `extract_toc_chapters` (lines 104-119). -/
structure TocChapterV7 where
  number : Str
  title : Str
  title_with_spaces : Str
  title_normalized : Str
  display : Str
  deriving DecidableEq, Repr

/-- The `for match in re.finditer(...)` loops of strategies 1-3: scan
match start positions left to right; on a hit, if the start lies inside
the TOC region (`pos < toc_end`), or the payload check fails (the
normalized-title comparison of strategy 2), or the 100 characters after
the match look like a page header, resume scanning at the match end
(finditer yields non-overlapping matches); otherwise return the start. -/
def stratLoop {α : Type} (st : SmartChapterSplitterV7)
    (matchAt : Nat → Option (Nat × α)) (ok : α → Bool) :
    Nat → Nat → Option Nat
  | 0, _ => none
  | fuel + 1, i =>
    match matchAt i with
    | none =>
      if st.text.length ≤ i then none
      else stratLoop st matchAt ok fuel (i + 1)
    | some (e, x) =>
      if i < st.toc_end then stratLoop st matchAt ok fuel e
      else if !(ok x) then stratLoop st matchAt ok fuel e
      else if is_page_header (slice e (e + 100) st.text) then
        stratLoop st matchAt ok fuel e
      else some i

/-- Strategy 1 of `find_chapter_in_body` (lines 153-162): pattern
`(?:\d+\s*\n\s*)?{number}\s*\n\s*{re.escape(title_with_spaces)}`,
IGNORECASE. -/
def strategy1 (st : SmartChapterSplitterV7) (number title_with_spaces : Str) :
    Option Nat :=
  stratLoop st
    (fun i =>
      (matchStrat number (pLit title_with_spaces) (st.text.drop i)).map
        (fun r => (i + r.1, r.2)))
    (fun _ => true) (st.text.length + 2) 0

/-- Strategy 2 (lines 164-179): pattern
`(?:\d+\s*\n\s*)?{number}\s*\n\s*([^\n]+)`; a hit is accepted when the
captured line's normalized form equals the entry's normalized title. -/
def strategy2 (st : SmartChapterSplitterV7) (number title_normalized : Str) :
    Option Nat :=
  stratLoop st
    (fun i =>
      (matchStrat number pLine (st.text.drop i)).map
        (fun r => (i + r.1, r.2)))
    (fun g => normalize_for_comparison g == title_normalized)
    (st.text.length + 2) 0

/-- Strategy 3 (lines 181-193): like strategy 1 with the title's words
joined by `\s+`. -/
def strategy3 (st : SmartChapterSplitterV7) (number title_with_spaces : Str) :
    Option Nat :=
  stratLoop st
    (fun i =>
      (matchStrat number (pWords (pySplit title_with_spaces))
        (st.text.drop i)).map (fun r => (i + r.1, r.2)))
    (fun _ => true) (st.text.length + 2) 0

/-- Strategy 4 (lines 195-200), for entries without an ordinal: the first
match of `\n{re.escape(title_with_spaces)}\s*\n` (IGNORECASE) anywhere in
the text — with no `toc_end` check and no page-header check. -/
def strategy4Find (title : Str) : Str → Option Nat
  | [] => none
  | c :: rest =>
    if c == '\n' && matchLit true title rest &&
        ((rest.drop title.length).takeWhile isWsA).contains '\n' then some 0
    else (strategy4Find title rest).map (· + 1)

/-- `SmartChapterSplitterV7.find_chapter_in_body(chapter_info)` (lines
144-202): strategies 1-3 in order for entries with an ordinal, strategy 4
for ordinal-less entries (Prologue/Epilogue); `none` models the `-1`
failure return. -/
def find_chapter_in_body (st : SmartChapterSplitterV7) (info : TocChapterV7) :
    Option Nat :=
  if info.number ≠ [] then
    match strategy1 st info.number info.title_with_spaces with
    | some p => some p
    | none =>
      match strategy2 st info.number info.title_normalized with
      | some p => some p
      | none => strategy3 st info.number info.title_with_spaces
  else strategy4Find info.title_with_spaces st.text

/-- The span/filter stage of `SmartChapterSplitterV7.split_chapters`
(lines 225-243), applied to the (already sorted) located positions: each
chapter's span runs from its position to the next chapter's position (end
of text for the last); the slice is stripped and kept only when its
character length is at least `min_chapter_length` — a character count,
not a word count. -/
def assembleV7 (st : SmartChapterSplitterV7) :
    List (Str × Nat) → List (Str × Str)
  | [] => []
  | [(t, p)] =>
    let content := stripA (sliceFrom p st.text)
    if st.min_chapter_length ≤ content.length then [(t, content)] else []
  | (t, p) :: (t2, q) :: rest =>
    let content := stripA (slice p q st.text)
    let tail := assembleV7 st ((t2, q) :: rest)
    if st.min_chapter_length ≤ content.length then (t, content) :: tail
    else tail

/-- `SmartChapterSplitterV7.split_chapters` (lines 204-245) from the
located `(display, position)` pairs onward: sort by position, then slice,
strip and filter. -/
def split_chapters_v7 (st : SmartChapterSplitterV7)
    (chapter_positions : List (Str × Nat)) : List (Str × Str) :=
  assembleV7 st (List.insertionSort (fun a b => a.2 ≤ b.2) chapter_positions)

/-- The spans assigned by the split loops (V7 line 228-234, simple
detector lines 85-88, v9 lines 404-408) before any filtering: `(title,
start, stop)` with `stop` the next chapter's start and end-of-document
for the last. -/
def spansOf (len : Nat) : List (Str × Nat) → List (Str × Nat × Nat)
  | [] => []
  | [(t, p)] => [(t, p, len)]
  | (t, p) :: (t2, q) :: rest => (t, p, q) :: spansOf len ((t2, q) :: rest)

/-! ### hybrid_chapter_splitter_production.py — HybridChapterSplitter -/

/-- Python `'a\nb'.split('\n')`. -/
def splitLines : Str → List Str
  | [] => [[]]
  | c :: rest =>
    if c == '\n' then [] :: splitLines rest
    else
      match splitLines rest with
      | [] => [[c]]
      | w :: ws => (c :: w) :: ws

/-- A TOC entry dict built by `_extract_toc_v7_method` (lines 191-201). -/
structure TocEntryH where
  number : Str
  title : Str
  raw_title : Str
  deriving DecidableEq, Repr

/-- The `Chapter` dataclass (lines 25-34). `confidence` is recorded in
hundredths of the source's float (0.85 → 85, quality scores are sums of
hundredths). -/
structure HybridChapter where
  number : Nat
  title : Str
  content : Str
  word_count : Nat
  confidence : Nat
  source : Str
  position : Nat
  deriving DecidableEq, Repr

/-- Does the suffix `s` match `\s+\d+$` entirely (one whitespace run then
one digit run)? -/
def wsThenDigits (s : Str) : Bool :=
  let k := (s.takeWhile isWsA).length
  decide (0 < k) && (let r := s.drop k; !r.isEmpty && r.all isDigitA)

/-- Match a stripped TOC line against `^(\d+)\s+(.+?)(?:\s+\d+)?$` (line
187) and build the entry dict of line 191.  The lazy `(.+?)` takes the
shortest prefix whose remainder is empty or matches `\s+\d+$`; the line
contains no newline, so `.` matches every character. -/
def numberedLineEntry (s : Str) : Option TocEntryH :=
  let d := s.takeWhile isDigitA
  if d = [] then none
  else
    let rest := s.drop d.length
    let k := (rest.takeWhile isWsA).length
    if k = 0 then none
    else
      let body := rest.drop k
      if body = [] then none
      else
        let p :=
          match (List.range (body.length + 1)).find?
              (fun p => decide (0 < p) &&
                ((body.drop p).isEmpty || wsThenDigits (body.drop p))) with
          | some p => p
          | none => body.length
        let g2 := stripA (body.take p)
        some ⟨d, d ++ ' ' :: g2, g2⟩

/-- Match `^(Prologue|Epilogue|Introduction|Preface|Foreword|Afterword)`
with IGNORECASE (line 195). -/
def specialLineH (s : Str) : Bool :=
  ["Prologue", "Epilogue", "Introduction", "Preface", "Foreword",
    "Afterword"].any (fun w => matchLit true w.toList s)

/-- Match `^(Part|Section|Book)\s+(I{1,3}|IV|V|VI{0,3}|\d+)` with
IGNORECASE (line 200).  After the keyword and the whitespace run, the
alternation `I{1,3}|IV|V|VI{0,3}|\d+` matches some prefix exactly when
the next character is `i`, `v` (case-insensitively) or a digit. -/
def partLineH (s : Str) : Bool :=
  ["Part", "Section", "Book"].any (fun w =>
    matchLit true w.toList s &&
    (let rest := s.drop w.toList.length
     let k := (rest.takeWhile isWsA).length
     decide (0 < k) &&
     match rest.drop k with
     | [] => false
     | c :: _ => lowerA c == 'i' || lowerA c == 'v' || isDigitA c))

/-- The per-line classification of `_extract_toc_v7_method` (lines
180-201): strip, keep lines of stripped length 5..100, then try the
numbered pattern, the special-chapter pattern and the part-marker
pattern in that order. -/
def classifyHybridLine (line : Str) : Option TocEntryH :=
  let s := stripA line
  if s.length < 5 || 100 < s.length then none
  else
    match numberedLineEntry s with
    | some e => some e
    | none =>
      if specialLineH s then some ⟨s, s, s⟩
      else if partLineH s then some ⟨s, s, s⟩
      else none

/-- The TOC anchors of `_extract_toc_v7_method` (line 156). -/
def hybridTocIndicators : List Str :=
  ["contents".toList, "table of contents".toList, "chapters".toList,
    "index".toList]

/-- The anchor loop of `_extract_toc_v7_method` (lines 162-166): for each
indicator in order, take the first occurrence in the lowered text and
accept it when it lies in the first 5000 characters. -/
def findAnchorIdx : List Str → Str → Option Nat
  | [], _ => none
  | ind :: rest, lower =>
    match findSub ind lower with
    | some idx => if idx < 5000 then some idx else findAnchorIdx rest lower
    | none => findAnchorIdx rest lower

/-- `HybridChapterSplitter._extract_toc_v7_method` (lines 152-207): find a
TOC indicator in the first 5000 characters (else return the empty list),
take 3000 characters from it, and classify each line. -/
def extract_toc_v7_method (full_text : Str) : List TocEntryH :=
  match findAnchorIdx hybridTocIndicators (full_text.map lowerA) with
  | none => []
  | some tocStart =>
    let tocEnd := min (tocStart + 3000) full_text.length
    let tocText := slice tocStart tocEnd full_text
    (splitLines tocText).filterMap classifyHybridLine

/-- The TOC-end markers of `_find_toc_end` (lines 256-262). -/
def hybridEndMarkers : List Str :=
  ["prologue".toList, "chapter 1".toList, "part i".toList, "part 1".toList,
    "introduction".toList]

/-- The marker loop of `_find_toc_end` (lines 264-277): for each marker,
find its first occurrence in the lowered text, then a second occurrence
at least `len(marker) + 100` later, and return that; default 5000. -/
def findTocEndGo : List Str → Str → Nat
  | [], _ => 5000
  | mk :: rest, lower =>
    match findSub mk lower with
    | some fi =>
      match findSub mk (lower.drop (fi + mk.length + 100)) with
      | some si => fi + mk.length + 100 + si
      | none => findTocEndGo rest lower
    | none => findTocEndGo rest lower

/-- `HybridChapterSplitter._find_toc_end` (lines 252-277). -/
def find_toc_end (full_text : Str) : Nat :=
  findTocEndGo hybridEndMarkers (full_text.map lowerA)

/-- The per-entry loop of `_locate_and_validate_chapters` (lines 221-248),
with `_find_chapter_in_text` abstracted as the parameter `find` (title,
raw title, start position — `none` models the `-1` failure value): the
minimum-length theorem proved below therefore holds for every body
search.  `_find_next_chapter_position` (lines 353-364) is inlined —
including its quirk of searching the next chapter's title from position
0, not from the current match. -/
def locateAndValidateGo (find : Str → Str → Nat → Option Nat)
    (all : List TocEntryH) (text : Str) (minLen tocEndPos : Nat) :
    Nat → List TocEntryH → List HybridChapter
  | _, [] => []
  | i, e :: rest =>
    let tail := locateAndValidateGo find all text minLen tocEndPos (i + 1) rest
    match find e.title e.raw_title tocEndPos with
    | none => tail
    | some pos =>
      let nextPos :=
        match all.get? (i + 1) with
        | some ne =>
          match find ne.title ne.title 0 with
          | some np => if pos < np then np else text.length
          | none => text.length
        | none => text.length
      let content := stripA (slice pos nextPos text)
      let wc := wordCount content
      if minLen ≤ wc then
        ⟨i + 1, e.title, content, wc, 85, "automatic".toList, pos⟩ :: tail
      else tail

/-- `HybridChapterSplitter._locate_and_validate_chapters` (lines 209-250):
an empty TOC yields no chapters; otherwise each TOC entry is searched for
after `_find_toc_end`, spans are cut to the next entry's position, and a
chapter is kept only when its word count reaches `min_chapter_length`. -/
def locate_and_validate_chapters (find : Str → Str → Nat → Option Nat)
    (toc_chapters : List TocEntryH) (text : Str) (minLen : Nat) :
    List HybridChapter :=
  if toc_chapters = [] then []
  else
    locateAndValidateGo find toc_chapters text minLen (find_toc_end text) 0
      toc_chapters

/-- `HybridChapterSplitter._is_valid_title` (lines 419-434). -/
def is_valid_title (title : Str) : Bool :=
  if title.length < 3 || 100 < title.length then false
  else if (let s := stripA title; !s.isEmpty && s.all isDigitA) then false
  else if pyIsUpper title && 10 < title.length then false
  else true

/-- `HybridChapterSplitter._has_excessive_repetition` (lines 436-454):
sample the first 500 characters; fewer than 10 words is treated as
suspicious; otherwise test `max_count > len(words) * 0.3`, which for the
word counts that can arise (at most 250) is exactly
`10 * max_count > 3 * len(words)` — the double `0.3 * len` rounds to the
exact product whenever `3 * len` is a multiple of 10, and otherwise the
gap to the nearest integer dwarfs the rounding error. -/
def has_excessive_repetition (text : Str) : Bool :=
  let words := pySplit (text.take 500)
  if words.length < 10 then true
  else
    let maxCount := (words.map (fun w => words.count w)).foldl max 0
    decide (3 * words.length < 10 * maxCount)

/-- The five weighted components of
`HybridChapterSplitter._calculate_quality_score` (lines 383-417), in
hundredths: content length (0.30/0.20/0.10), sentence count
(0.25/0.15/0.05), title quality (0.20), nonzero position (0.15), absence
of excessive repetition (0.10). -/
def quality_components (ch : HybridChapter) : Nat × Nat × Nat × Nat × Nat :=
  let c1 :=
    if 2000 < ch.word_count then 30
    else if 1000 < ch.word_count then 20
    else if 500 < ch.word_count then 10
    else 0
  let sentences :=
    ch.content.count '.' + ch.content.count '!' + ch.content.count '?'
  let c2 :=
    if 20 < sentences then 25
    else if 10 < sentences then 15
    else if 5 < sentences then 5
    else 0
  let c3 := if is_valid_title ch.title then 20 else 0
  let c4 := if 0 < ch.position then 15 else 0
  let c5 := if has_excessive_repetition ch.content then 0 else 10
  (c1, c2, c3, c4, c5)

/-- The component sum of `_calculate_quality_score`, in hundredths. -/
def quality_sum (ch : HybridChapter) : Nat :=
  let q := quality_components ch
  q.1 + q.2.1 + q.2.2.1 + q.2.2.2.1 + q.2.2.2.2

/-- `HybridChapterSplitter._calculate_quality_score`: the capped component
sum, in hundredths. -/
def calculate_quality_score (ch : HybridChapter) : Nat :=
  min 100 (quality_sum ch)

/-- The acceptance test `score >= 0.75` of `_validate_chapter_quality`
(line 374), made faithful to the source's left-to-right double addition:
among all 4·4·2·2·2 component combinations, exactly one whose exact sum
reaches 0.75 compares below it in doubles — (0.30, 0.15, 0.20, 0, 0.10),
whose Python sum is 0.7499999999999999; every other combination agrees
with the exact comparison (checked exhaustively). -/
def passes_quality_gate (ch : HybridChapter) : Bool :=
  let q := quality_components ch
  decide (75 ≤ quality_sum ch) &&
    !(decide (q.1 = 30) && decide (q.2.1 = 15) && decide (q.2.2.1 = 20) &&
      decide (q.2.2.2.1 = 0) && decide (q.2.2.2.2 = 10))

/-- `HybridChapterSplitter._validate_chapter_quality` (lines 366-381):
keep exactly the chapters passing the 0.75 gate, updating their
confidence to the score; the rest are logged and dropped from the
returned list. -/
def validate_chapter_quality : List HybridChapter → List HybridChapter
  | [] => []
  | ch :: rest =>
    if passes_quality_gate ch then
      { ch with confidence := calculate_quality_score ch } ::
        validate_chapter_quality rest
    else validate_chapter_quality rest

/-! ### audiobook_processor_v13_production.py — SmartChapterSplitterV7.extract_toc -/

/-- The anchor search
`re.search(r'(Contents|Table of Contents|CONTENTS)', text, re.IGNORECASE)`
(line 61), returning the end offset of the leftmost match: at each
position the alternatives are tried in order, so a position matching
`Contents` (case-insensitively) ends 8 characters later, one matching
only `Table of Contents` ends 17 later (the third alternative repeats
the first). -/
def v13AnchorEnd : Str → Option Nat
  | [] => none
  | c :: rest =>
    if matchLit true "Contents".toList (c :: rest) then some 8
    else if matchLit true "Table of Contents".toList (c :: rest) then some 17
    else (v13AnchorEnd rest).map (· + 1)

/-- One alternative check of the TOC-end search
`(About the Author|Prologue\s+[A-Z]|^[A-Z][a-z]+\s+[A-Z])` (line 68,
MULTILINE, case-sensitive); `atLineStart` tells whether `^` matches
here. -/
def v13EndMatcher (atLineStart : Bool) (s : Str) : Bool :=
  matchLit false "About the Author".toList s ||
  (matchLit false "Prologue".toList s &&
    (let rest := s.drop 8
     let k := (rest.takeWhile isWsA).length
     decide (0 < k) &&
     match rest.drop k with
     | [] => false
     | c :: _ => isUpperA c)) ||
  (atLineStart &&
    match s with
    | [] => false
    | c :: rest =>
      isUpperA c &&
      (let lo := rest.takeWhile isLowerA
       decide (0 < lo.length) &&
       (let r2 := rest.drop lo.length
        let k := (r2.takeWhile isWsA).length
        decide (0 < k) &&
        match r2.drop k with
        | [] => false
        | d :: _ => isUpperA d)))

/-- Leftmost match start of the TOC-end pattern; `first` is true when the
current position is a line start. -/
def v13EndFind (first : Bool) : Str → Option Nat
  | [] => none
  | c :: rest =>
    if v13EndMatcher first (c :: rest) then some 0
    else (v13EndFind (c == '\n') rest).map (· + 1)

/-- `re.sub(r'\s+\d{1,3}$', '', line)` (line 92): remove a trailing page
number of one to three digits together with the whitespace before it. -/
def stripTrailingPageNum (s : Str) : Str :=
  let r := s.reverse
  let d := r.takeWhile isDigitA
  if !d.isEmpty && d.length ≤ 3 then
    let r2 := r.drop d.length
    let w := r2.takeWhile isWsA
    if !w.isEmpty then (r2.drop w.length).reverse else s
  else s

/-- The chapter-entry pattern
`^(Prologue|Epilogue|\d+\s+[A-Z]|\d+[A-Z]|Part\s+[IVX]+|[IVX]+\s+[A-Z])`
(line 90, IGNORECASE — under which `[A-Z]` matches any letter). -/
def v13ChapterPattern (s : Str) : Bool :=
  matchLit true "Prologue".toList s || matchLit true "Epilogue".toList s ||
  (let d := s.takeWhile isDigitA
   !d.isEmpty &&
   (let rest := s.drop d.length
    let k := (rest.takeWhile isWsA).length
    decide (0 < k) &&
    match rest.drop k with
    | [] => false
    | c :: _ => isLetterA c)) ||
  (let d := s.takeWhile isDigitA
   !d.isEmpty &&
   match s.drop d.length with
   | [] => false
   | c :: _ => isLetterA c) ||
  (matchLit true "Part".toList s &&
   (let rest := s.drop 4
    let k := (rest.takeWhile isWsA).length
    decide (0 < k) &&
    match rest.drop k with
    | [] => false
    | c :: _ => lowerA c == 'i' || lowerA c == 'v' || lowerA c == 'x')) ||
  (let r := s.takeWhile (fun c => lowerA c == 'i' || lowerA c == 'v' || lowerA c == 'x')
   !r.isEmpty &&
   (let r2 := s.drop r.length
    let k := (r2.takeWhile isWsA).length
    decide (0 < k) &&
    match r2.drop k with
    | [] => false
    | c :: _ => isLetterA c))

/-- The per-line filter of `extract_toc` (lines 74-94): strip; skip empty
or single-character lines, bare 1-3 digit page numbers and bare roman
numerals; keep lines matching the chapter pattern, with any trailing page
number removed. -/
def v13ClassifyLine (line : Str) : Option Str :=
  let s := stripA line
  if s.isEmpty || s.length < 2 then none
  else if !s.isEmpty && s.length ≤ 3 && s.all isDigitA then none
  else if !s.isEmpty && s.all (fun c => c == 'I' || c == 'V' || c == 'X') then
    none
  else if v13ChapterPattern s then
    let s2 := stripTrailingPageNum s
    if !s2.isEmpty && 1 < s2.length then some (stripA s2) else none
  else none

/-- `SmartChapterSplitterV7.extract_toc`
(audiobook_processor_v13_production.py, lines 58-96): search the first
15000 characters for a Contents anchor — absent, return the empty list;
otherwise scan up to the TOC-end marker (default 5000 characters ahead)
and collect the chapter-like lines. -/
def extract_toc_v13 (full_text : Str) : List Str :=
  match v13AnchorEnd (full_text.take 15000) with
  | none => []
  | some tocStart =>
    let chunk := slice tocStart (tocStart + 10000) full_text
    let tocEnd := tocStart +
      (match v13EndFind true chunk with
       | some s => s
       | none => 5000)
    let tocText := slice tocStart tocEnd full_text
    (splitLines tocText).filterMap v13ClassifyLine

/-! ### Supporting lemmas -/

theorem stratLoop_accepts_only_filtered {α : Type}
    (st : SmartChapterSplitterV7) (matchAt : Nat → Option (Nat × α))
    (ok : α → Bool) :
    ∀ (fuel i p : Nat), stratLoop st matchAt ok fuel i = some p →
      st.toc_end ≤ p ∧
        ∃ e x, matchAt p = some (e, x) ∧ ok x = true ∧
          is_page_header (slice e (e + 100) st.text) = false := by
  intro fuel
  induction fuel with
  | zero => intro i p h; exact absurd h (by simp [stratLoop])
  | succ n ih =>
    intro i p h
    rw [stratLoop] at h
    cases hm : matchAt i with
    | none =>
      rw [hm] at h
      dsimp only at h
      by_cases hl : st.text.length ≤ i
      · rw [if_pos hl] at h; exact absurd h (by simp)
      · rw [if_neg hl] at h; exact ih _ _ h
    | some r =>
      obtain ⟨e, x⟩ := r
      rw [hm] at h
      dsimp only at h
      by_cases h1 : i < st.toc_end
      · rw [if_pos h1] at h; exact ih _ _ h
      · rw [if_neg h1] at h
        by_cases h2 : (!ok x) = true
        · rw [if_pos h2] at h; exact ih _ _ h
        · rw [if_neg h2] at h
          by_cases h3 : is_page_header (slice e (e + 100) st.text) = true
          · rw [if_pos h3] at h; exact ih _ _ h
          · rw [if_neg h3] at h
            obtain rfl : i = p := by injection h
            refine ⟨by omega, e, x, hm, ?_, ?_⟩
            · rwa [Bool.not_eq_true', Bool.not_eq_false] at h2
            · rwa [Bool.eq_false_iff]

theorem slice_append_drop (text : Str) {p q : Nat} (hpq : p ≤ q) :
    slice p q text ++ text.drop q = text.drop p := by
  unfold slice
  have h1 : text.drop q = List.drop (q - p) (text.drop p) := by
    rw [List.drop_drop]
    congr 1
    omega
  rw [h1, List.take_append_drop]

theorem slice_to_length (text : Str) (p : Nat) :
    slice p text.length text = text.drop p := by
  unfold slice
  have h : text.length - p = (text.drop p).length := (List.length_drop p text).symm
  rw [h, List.take_length]

theorem spansOf_cons (len : Nat) (t : Str) (p : Nat) (rest : List (Str × Nat)) :
    ∃ e tl, spansOf len ((t, p) :: rest) = (t, p, e) :: tl := by
  cases rest with
  | nil => exact ⟨len, [], rfl⟩
  | cons r rs => exact ⟨r.2, spansOf len (r :: rs), rfl⟩

theorem spansOf_chain (len : Nat) : ∀ ps : List (Str × Nat),
    (spansOf len ps).Chain' (fun a b => a.2.2 = b.2.1)
  | [] => by simp [spansOf]
  | [(t, p)] => by simp [spansOf]
  | (t, p) :: (t2, q) :: rest => by
    have ih := spansOf_chain len ((t2, q) :: rest)
    rw [spansOf]
    refine List.chain'_cons'.mpr ⟨?_, ih⟩
    intro y hy
    obtain ⟨e, tl, hsp⟩ := spansOf_cons len t2 q rest
    rw [hsp] at hy
    simp only [List.head?_cons, Option.mem_def, Option.some.injEq] at hy
    rw [← hy]

theorem spansOf_getLast (len : Nat) : ∀ (ps : List (Str × Nat)) (x : Str × Nat × Nat),
    (spansOf len ps).getLast? = some x → x.2.2 = len
  | [], x => by simp [spansOf]
  | [(t, p)], x => by
    intro hx
    simp only [spansOf, List.getLast?_singleton, Option.some.injEq] at hx
    rw [← hx]
  | (t, p) :: (t2, q) :: rest, x => by
    intro hx
    rw [spansOf] at hx
    obtain ⟨e, tl, hsp⟩ := spansOf_cons len t2 q rest
    rw [hsp, List.getLast?_cons_cons, ← hsp] at hx
    exact spansOf_getLast len ((t2, q) :: rest) x hx

theorem spansOf_join (text : Str) : ∀ (t : Str) (p : Nat) (ps : List (Str × Nat)),
    List.Chain' (fun a b => a.2 ≤ b.2) ((t, p) :: ps) →
    ((spansOf text.length ((t, p) :: ps)).map
        (fun s => slice s.2.1 s.2.2 text)).flatten = text.drop p
  | t, p, [], _ => by simp [spansOf, slice_to_length]
  | t, p, (t2, q) :: rest, hch => by
    have hpq : p ≤ q := (List.chain'_cons.mp hch).1
    have ih := spansOf_join text t2 q rest (List.chain'_cons.mp hch).2
    rw [spansOf, List.map_cons]
    dsimp only
    rw [List.flatten_cons, ih, slice_append_drop text hpq]

theorem assembleV7_eq (st : SmartChapterSplitterV7) : ∀ ps : List (Str × Nat),
    assembleV7 st ps =
      ((spansOf st.text.length ps).map
        (fun s => (s.1, stripA (slice s.2.1 s.2.2 st.text)))).filter
        (fun c => decide (st.min_chapter_length ≤ c.2.length))
  | [] => rfl
  | [(t, p)] => by
    rw [assembleV7, spansOf]
    simp only [List.map_cons, List.map_nil, List.filter_cons, List.filter_nil,
      slice_to_length]
    by_cases h : st.min_chapter_length ≤ (stripA (sliceFrom p st.text)).length
    · rw [if_pos h, if_pos (by exact decide_eq_true h)]
      rfl
    · rw [if_neg h, if_neg (by simpa using h)]
  | (t, p) :: (t2, q) :: rest => by
    rw [assembleV7, spansOf]
    simp only [List.map_cons, List.filter_cons]
    rw [← assembleV7_eq st ((t2, q) :: rest)]
    by_cases h : st.min_chapter_length ≤ (stripA (slice p q st.text)).length
    · rw [if_pos h, if_pos (by exact decide_eq_true h)]
    · rw [if_neg h, if_neg (by simpa using h)]

theorem assembleV7_min_length (st : SmartChapterSplitterV7) :
    ∀ (ps : List (Str × Nat)) (ch : Str × Str), ch ∈ assembleV7 st ps →
      st.min_chapter_length ≤ ch.2.length
  | [], ch => by simp [assembleV7]
  | [(t, p)], ch => by
    intro hch
    rw [assembleV7] at hch
    split at hch
    · rename_i hlen
      simp only [List.mem_singleton] at hch
      rw [hch]
      exact hlen
    · exact absurd hch (by simp)
  | (t, p) :: (t2, q) :: rest, ch => by
    intro hch
    rw [assembleV7] at hch
    split at hch
    · rename_i hlen
      rcases List.mem_cons.mp hch with h | h
      · rw [h]; exact hlen
      · exact assembleV7_min_length st ((t2, q) :: rest) ch h
    · exact assembleV7_min_length st ((t2, q) :: rest) ch hch

theorem locateAndValidateGo_min (find : Str → Str → Nat → Option Nat)
    (all : List TocEntryH) (text : Str) (minLen tocEndPos : Nat) :
    ∀ (l : List TocEntryH) (i : Nat) (ch : HybridChapter),
      ch ∈ locateAndValidateGo find all text minLen tocEndPos i l →
        minLen ≤ ch.word_count ∧ ch.word_count = wordCount ch.content
  | [], i, ch => by simp [locateAndValidateGo]
  | e :: rest, i, ch => by
    intro hch
    rw [locateAndValidateGo] at hch
    cases hf : find e.title e.raw_title tocEndPos with
    | none =>
      rw [hf] at hch
      exact locateAndValidateGo_min find all text minLen tocEndPos rest (i + 1) ch hch
    | some pos =>
      rw [hf] at hch
      dsimp only at hch
      split at hch
      · rename_i hwc
        rcases List.mem_cons.mp hch with h | h
        · rw [h]
          exact ⟨hwc, rfl⟩
        · exact locateAndValidateGo_min find all text minLen tocEndPos rest (i + 1) ch h
      · exact locateAndValidateGo_min find all text minLen tocEndPos rest (i + 1) ch hch

theorem validate_chapter_quality_eq : ∀ chapters : List HybridChapter,
    validate_chapter_quality chapters =
      (chapters.filter passes_quality_gate).map
        (fun ch => { ch with confidence := calculate_quality_score ch })
  | [] => rfl
  | ch :: rest => by
    rw [validate_chapter_quality, List.filter_cons]
    by_cases h : passes_quality_gate ch
    · rw [if_pos h, if_pos h, List.map_cons, validate_chapter_quality_eq rest]
    · rw [if_neg h, if_neg h, validate_chapter_quality_eq rest]

theorem gate_implies_score (ch : HybridChapter)
    (h : passes_quality_gate ch = true) : 75 ≤ calculate_quality_score ch := by
  unfold passes_quality_gate at h
  rw [Bool.and_eq_true] at h
  have h75 : 75 ≤ quality_sum ch := of_decide_eq_true h.1
  unfold calculate_quality_score
  omega

/-- Is the title a prologue/epilogue sentinel (case-insensitive substring
test, as in the sources)? -/
def isSentinelTitle (t : Str) : Bool :=
  containsLowerSub "prologue".toList t || containsLowerSub "epilogue".toList t

theorem assign_numbers_v9_sentinels : ∀ (k : Nat) (l : List (Str × Nat))
    (r : Str × Str × Nat), r ∈ assign_numbers_v9 k l →
      (containsLowerSub "prologue".toList r.2.1 = true → r.1 = "00".toList) ∧
      (containsLowerSub "prologue".toList r.2.1 = false →
        containsLowerSub "epilogue".toList r.2.1 = true → r.1 = "900".toList)
  | k, [], r => by simp [assign_numbers_v9]
  | k, (title, posn) :: rest, r => by
    intro hr
    rw [assign_numbers_v9] at hr
    by_cases hp : containsLowerSub "prologue".toList title
    · rw [if_pos hp] at hr
      rcases List.mem_cons.mp hr with h | h
      · subst h
        refine ⟨fun _ => rfl, fun hpf _ => ?_⟩
        dsimp only at hpf
        rw [hpf] at hp
        exact absurd hp (by simp)
      · exact assign_numbers_v9_sentinels k rest r h
    · rw [if_neg hp] at hr
      by_cases he : containsLowerSub "epilogue".toList title
      · rw [if_pos he] at hr
        rcases List.mem_cons.mp hr with h | h
        · subst h
          refine ⟨fun hpt => ?_, fun _ _ => rfl⟩
          dsimp only at hpt
          exact absurd hpt hp
        · exact assign_numbers_v9_sentinels k rest r h
      · rw [if_neg he] at hr
        rcases List.mem_cons.mp hr with h | h
        · subst h
          refine ⟨fun hpt => ?_, fun _ het => ?_⟩
          · dsimp only at hpt
            exact absurd hpt hp
          · dsimp only at het
            exact absurd het he
        · exact assign_numbers_v9_sentinels (k + 1) rest r h

theorem assign_numbers_v9_sequential : ∀ (l : List (Str × Nat)) (k : Nat),
    ((assign_numbers_v9 k l).filter (fun r => !isSentinelTitle r.2.1)).map
        (fun r => r.1) =
      (List.range' k (l.countP (fun e => !isSentinelTitle e.1))).map pad2
  | [], k => by simp [assign_numbers_v9]
  | (title, posn) :: rest, k => by
    rw [assign_numbers_v9]
    by_cases hp : containsLowerSub "prologue".toList title
    · have hs : isSentinelTitle title = true := by
        rw [isSentinelTitle, hp, Bool.true_or]
      rw [if_pos hp, List.filter_cons, List.countP_cons,
        if_neg (show ¬(!isSentinelTitle
          (("00".toList, title, posn) : Str × Str × Nat).2.1) = true by simp [hs]),
        if_neg (show ¬(!isSentinelTitle ((title, posn) : Str × Nat).1) = true by
          simp [hs])]
      simpa using assign_numbers_v9_sequential rest k
    · rw [if_neg hp]
      by_cases he : containsLowerSub "epilogue".toList title
      · have hs : isSentinelTitle title = true := by
          rw [isSentinelTitle, he, Bool.or_true]
        rw [if_pos he, List.filter_cons, List.countP_cons,
          if_neg (show ¬(!isSentinelTitle
            (("900".toList, title, posn) : Str × Str × Nat).2.1) = true by simp [hs]),
          if_neg (show ¬(!isSentinelTitle ((title, posn) : Str × Nat).1) = true by
            simp [hs])]
        simpa using assign_numbers_v9_sequential rest k
      · have hp2 : containsLowerSub "prologue".toList title = false :=
          Bool.eq_false_iff.mpr hp
        have he2 : containsLowerSub "epilogue".toList title = false :=
          Bool.eq_false_iff.mpr he
        have hs : isSentinelTitle title = false := by
          rw [isSentinelTitle, hp2, he2]
          rfl
        rw [if_neg he, List.filter_cons, List.countP_cons,
          if_pos (show (!isSentinelTitle
            ((pad2 k, title, posn) : Str × Str × Nat).2.1) = true by simp [hs]),
          if_pos (show (!isSentinelTitle ((title, posn) : Str × Nat).1) = true by
            simp [hs]),
          List.map_cons, assign_numbers_v9_sequential rest (k + 1),
          List.range'_succ, List.map_cons]

theorem findSub_none : ∀ (pat l : Str), findSub pat l = none →
    ∀ k, matchLit false pat (l.drop k) = false
  | pat, [] => by
    intro h k
    rw [findSub] at h
    split at h
    · exact absurd h (by simp)
    · rename_i hne
      match pat with
      | [] => exact (hne rfl).elim
      | p :: ps => simp [matchLit]
  | pat, c :: rest => by
    intro h k
    rw [findSub] at h
    split at h
    · exact absurd h (by simp)
    · rename_i hm
      have hrest : findSub pat rest = none := by
        cases hf : findSub pat rest with
        | none => rfl
        | some j => rw [hf] at h; exact absurd h (by simp)
      match k with
      | 0 => exact Bool.eq_false_iff.mpr hm
      | k + 1 => simpa using findSub_none pat rest hrest k

theorem matchLit_ci_lower : ∀ pat l : Str,
    matchLit true pat l = matchLit false (pat.map lowerA) (l.map lowerA)
  | [], l => by cases l <;> simp [matchLit]
  | p :: ps, [] => by simp [matchLit]
  | p :: ps, c :: cs => by
    simp only [List.map_cons, matchLit]
    norm_num
    rw [matchLit_ci_lower ps cs]

theorem findAnchorIdx_none (lower : Str) : ∀ inds : List Str,
    (∀ ind ∈ inds, ∀ idx, findSub ind lower = some idx → 5000 ≤ idx) →
    findAnchorIdx inds lower = none
  | [] => fun _ => rfl
  | ind :: rest => by
    intro h
    rw [findAnchorIdx]
    have hrest := findAnchorIdx_none lower rest
      (fun i hi => h i (List.mem_cons_of_mem ind hi))
    cases hf : findSub ind lower with
    | none => exact hrest
    | some idx =>
      dsimp only
      rw [if_neg (by have := h ind (List.mem_cons_self ind rest) idx hf; omega)]
      exact hrest

theorem matchLit_append {ci : Bool} : ∀ (a b l : Str),
    matchLit ci (a ++ b) l = true → matchLit ci b (l.drop a.length) = true
  | [], b, l => by simp
  | p :: ps, b, l => by
    intro h
    match l with
    | [] => exact absurd h (by simp [matchLit])
    | c :: cs =>
      rw [List.cons_append, matchLit, Bool.and_eq_true] at h
      simpa using matchLit_append ps b cs h.2

theorem v13AnchorEnd_none : ∀ l : Str,
    (∀ k, matchLit true "Contents".toList (l.drop k) = false) →
    v13AnchorEnd l = none
  | [] => fun _ => rfl
  | c :: rest => by
    intro h
    rw [v13AnchorEnd]
    have h0 : matchLit true "Contents".toList (c :: rest) = false := by
      simpa using h 0
    have h17 : matchLit true "Table of Contents".toList (c :: rest) = false := by
      by_contra hc
      rw [Bool.not_eq_false] at hc
      have hsplit : ("Table of ".toList ++ "Contents".toList : Str) =
          "Table of Contents".toList := by decide
      rw [← hsplit] at hc
      have := matchLit_append "Table of ".toList "Contents".toList (c :: rest) hc
      rw [show ((c :: rest).drop "Table of ".toList.length) = rest.drop 8 from rfl]
        at this
      have hk := h 9
      rw [show ((c :: rest).drop 9) = rest.drop 8 from rfl] at hk
      rw [hk] at this
      exact absurd this (by simp)
    rw [if_neg (show ¬(matchLit true "Contents".toList (c :: rest)) = true by
        rw [h0]; simp),
      if_neg (show ¬(matchLit true "Table of Contents".toList (c :: rest)) = true by
        rw [h17]; simp)]
    rw [v13AnchorEnd_none rest (fun k => by simpa using h (k + 1))]
    rfl

theorem v13AnchorEnd_none_of_findSub (l : Str)
    (h : findSub "contents".toList (l.map lowerA) = none) :
    v13AnchorEnd l = none := by
  apply v13AnchorEnd_none
  intro k
  rw [matchLit_ci_lower,
    show ("Contents".toList.map lowerA) = "contents".toList from by decide,
    List.map_drop lowerA l k]
  exact findSub_none _ _ h k

/-! ### Claim theorems -/

/-- A text whose TOC block (inside the first 3000 characters, i.e. before
`searchStartOffset = toc_end`) contains the bare line "Prologue" of its
chapter listing, followed by the real prologue in the body. -/
def c1Text : Str :=
  "Contents\nPrologue\n1 OnceUponaTime\nbody text here\nPrologue\nIt was a dark night.\n".toList

/-- The TOC entry the V7 extractor builds for the special line "Prologue":
no ordinal (`number = ''`). -/
def c1Entry : TocChapterV7 :=
  ⟨[], "Prologue".toList, "Prologue".toList, "prologue".toList,
    "Prologue".toList⟩

/-- C1, failing input (code bug): `find_chapter_in_body` must never return a
position before `searchStartOffset` (`toc_end` = 3000), yet for the
ordinal-less entry "Prologue" strategy 4 performs no `toc_end` check and
returns offset 8 — the newline before the TOC's own "Prologue" listing,
inside `[0, 3000)`.  Strategies 1-3 all skip positions `< toc_end`, so the
missing check in strategy 4 contradicts the stated invariant. -/
theorem c1_no_ordinal_strategy_enters_toc :
    find_chapter_in_body ⟨c1Text, 500, 3000⟩ c1Entry = some 8 ∧ 8 < 3000 := by
  constructor
  · decide
  · decide

/-- C2 (code bug): `split_camel_case_perfect`
(smart_chapter_splitter_v7_perfect.py) maps all five literal inputs to
exactly the stated outputs; `split_camel_case_v7`
(audiobook_processor_v13_1_universal.py), whose docstring claims the same
edge cases (including "MyFirstMisadventure"), does not — its
single-connector pass is compiled with `re.IGNORECASE`, which makes
`([a-z])(a)([A-Z])` match inside all-lowercase runs, breaking three of the
five cases. -/
theorem c2_camel_case_literals :
    split_camel_case_perfect "OnceUponaTime".toList = "Once Upon a Time".toList ∧
    split_camel_case_perfect "IntoAdulthood".toList = "Into Adulthood".toList ∧
    split_camel_case_perfect "CarolOfTheBells".toList = "Carol of the Bells".toList ∧
    split_camel_case_perfect "MyFirstMisadventure".toList =
      "My First Misadventure".toList ∧
    split_camel_case_perfect "ANewFamily".toList = "A New Family".toList ∧
    split_camel_case_v7 "MyFirstMisadventure".toList =
      "My First Mis a dventure".toList ∧
    split_camel_case_v7 "CarolOfTheBells".toList = "C a rolof the Bells".toList ∧
    split_camel_case_v7 "ANewFamily".toList = "A New F a mily".toList := by
  refine ⟨?_, ?_, ?_, ?_, ?_, ?_, ?_, ?_⟩ <;> decide

/-- C5: with zero surviving chapters, both pipelines return exactly one
chapter numbered "00", titled "Full Book", whose content is the whole
input text and whose word count is `len(text.split())` — a normal return
value, not an error. -/
theorem c5_degenerate_fallback (text : Str) :
    split_chapters_simple text [] =
      [("00".toList, "Full Book".toList, text, wordCount text)] ∧
    split_into_chapters_v9 text [] =
      [⟨"00".toList, "Full Book".toList, text, wordCount text⟩] :=
  ⟨rfl, rfl⟩

/-- C10: both title normalizers only insert spaces and change letter case —
lowercasing the output and deleting all whitespace (`canon`) gives exactly
the lowercased, whitespace-free input. -/
theorem c10_normalizers_preserve_content (s : Str) :
    canon (split_camel_case_perfect s) = canon s ∧
    canon (split_camel_case_v7 s) = canon s :=
  ⟨canon_split_camel_case_perfect s, canon_split_camel_case_v7 s⟩

/-- C9, amended: `_validate_chapter_quality` returns exactly the chapters
passing the 0.75 gate, with confidence updated to the score; chapters
scoring below the gate are only logged — they do not appear in the
returned list (the claim's `lowConfidenceChapters` output does not
exist). -/
theorem c9_amended_quality_gate :
    (∀ chapters : List HybridChapter,
      validate_chapter_quality chapters =
        (chapters.filter passes_quality_gate).map
          (fun ch => { ch with confidence := calculate_quality_score ch })) ∧
    (∀ (chapters : List HybridChapter) (ch : HybridChapter),
      ch ∈ validate_chapter_quality chapters → 75 ≤ ch.confidence) := by
  refine ⟨validate_chapter_quality_eq, ?_⟩
  intro chapters ch hch
  rw [validate_chapter_quality_eq] at hch
  obtain ⟨ch0, hch0, rfl⟩ := List.mem_map.mp hch
  exact gate_implies_score ch0 (List.mem_filter.mp hch0).2

/-- A chapter whose quality score is far below the gate: 3 words, one
sentence mark, valid title, nonzero position, too few words for the
repetition check — score 0.35. -/
def c9LowChapter : HybridChapter :=
  ⟨1, "1 Alpha".toList, "tiny.".toList, 3, 85, "automatic".toList, 5000⟩

/-- C9, counterexample: a chapter scoring 0.35 < 0.75 is *absent* from the
validated list — it is not surfaced as a low-confidence chapter, contrary
to the claim. -/
theorem c9_low_score_counterexample :
    calculate_quality_score c9LowChapter = 35 ∧ 35 < 75 ∧
    validate_chapter_quality [c9LowChapter] = [] := by
  refine ⟨?_, ?_, ?_⟩ <;> decide

/-- A chapter passing the quality gate with full marks: 2500 words, 25
sentence marks, valid title, nonzero position, no repetition. -/
def c9GoodChapter : HybridChapter :=
  ⟨2, "2 Beta".toList,
    "alpha beta gamma delta epsilon zeta eta theta iota kappa .........................".toList,
    2500, 85, "automatic".toList, 4000⟩

/-- C9, witness: the gate theorem applied to a chapter that is in the
validated list. -/
theorem c9_amended_quality_gate_witness :
    75 ≤ ({ c9GoodChapter with
      confidence := calculate_quality_score c9GoodChapter } : HybridChapter).confidence :=
  c9_amended_quality_gate.2 [c9GoodChapter] _ (by decide)

/-- A 210-character body used by the numbering examples (content is
irrelevant to number assignment). -/
def c4Text : Str := List.replicate 210 'x'

/-- C4, amended: the v9 numbering assigns "00" to every prologue-containing
title and "900" to every epilogue-containing one, and the remaining
chapters receive consecutive sequential numbers `k, k+1, …` (zero-padded)
in list order; `split_chapters_simple` instead uses the title's leading
integer (zero-padded) when present and the list index otherwise.  On the
located entries ["Prologue", "1 Alpha", "2 Beta", "Epilogue"] both
schemes produce exactly ["00", "01", "02", "900"]. -/
theorem c4_amended_sentinel_numbering :
    (∀ (k : Nat) (l : List (Str × Nat)) (r : Str × Str × Nat),
      r ∈ assign_numbers_v9 k l →
        (containsLowerSub "prologue".toList r.2.1 = true → r.1 = "00".toList) ∧
        (containsLowerSub "prologue".toList r.2.1 = false →
          containsLowerSub "epilogue".toList r.2.1 = true →
            r.1 = "900".toList)) ∧
    (∀ (l : List (Str × Nat)) (k : Nat),
      ((assign_numbers_v9 k l).filter (fun r => !isSentinelTitle r.2.1)).map
          (fun r => r.1) =
        (List.range' k (l.countP (fun e => !isSentinelTitle e.1))).map pad2) ∧
    (number_chapters_v9 [("Prologue".toList, 0), ("1 Alpha".toList, 50),
        ("2 Beta".toList, 120), ("Epilogue".toList, 200)]).map (fun r => r.1) =
      ["00".toList, "01".toList, "02".toList, "900".toList] ∧
    (split_chapters_simple c4Text [(0, "Prologue".toList),
        (50, "1 Alpha".toList), (120, "2 Beta".toList),
        (200, "Epilogue".toList)]).map (fun r => r.1) =
      ["00".toList, "01".toList, "02".toList, "900".toList] := by
  refine ⟨assign_numbers_v9_sentinels, assign_numbers_v9_sequential, ?_, ?_⟩
  · decide
  · decide

/-- C4, witness: the sentinel clause applied to the prologue entry of the
concrete v9 numbering run. -/
theorem c4_amended_sentinel_numbering_witness :
    containsLowerSub "prologue".toList
        (("00".toList, "Prologue".toList, (0 : Nat)) : Str × Str × Nat).2.1 = true →
      (("00".toList, "Prologue".toList, (0 : Nat)) : Str × Str × Nat).1 =
        "00".toList :=
  (c4_amended_sentinel_numbering.1 1
    [("Prologue".toList, 0), ("1 Alpha".toList, 50)]
    ("00".toList, "Prologue".toList, 0) (by decide)).1

/-- C4, counterexample: the claim says non-sentinel chapters get
*consecutive sequential* numbers in document order, so the single
non-sentinel entry "5 Alpha" would get "01"; `split_chapters_simple`
extracts the title's leading integer instead and numbers it "05". -/
theorem c4_sequential_counterexample :
    (split_chapters_simple c4Text [(0, "Prologue".toList),
        (50, "5 Alpha".toList), (100, "Epilogue".toList)]).map (fun r => r.1) =
      ["00".toList, "05".toList, "900".toList] ∧
    ("05".toList : Str) ≠ "01".toList := by
  constructor
  · decide
  · decide

/-- C8, amended: when no occurrence of any of the hybrid splitter's four
TOC anchors — "contents", "table of contents", "chapters", "index" (the
claim names only the first two) — starts in the first 5000 characters,
`_extract_toc_v7_method` returns the empty list; likewise
`extract_toc` of v13-production returns the empty list when the first
15000 characters contain no case-insensitive "contents" (which also rules
out "table of contents"); and an empty TOC list makes the chapter-location
stage return the empty chapter list rather than raising. -/
theorem c8_amended_toc_anchor_absent :
    (∀ full_text : Str,
      (∀ ind ∈ hybridTocIndicators, ∀ idx,
        findSub ind (full_text.map lowerA) = some idx → 5000 ≤ idx) →
      extract_toc_v7_method full_text = []) ∧
    (∀ full_text : Str,
      findSub "contents".toList ((full_text.take 15000).map lowerA) = none →
      extract_toc_v13 full_text = []) ∧
    (∀ (find : Str → Str → Nat → Option Nat) (text : Str) (minLen : Nat),
      locate_and_validate_chapters find [] text minLen = []) := by
  refine ⟨?_, ?_, fun _ _ _ => rfl⟩
  · intro full_text h
    unfold extract_toc_v7_method
    rw [findAnchorIdx_none _ _ h]
  · intro full_text h
    unfold extract_toc_v13
    rw [v13AnchorEnd_none_of_findSub _ h]

/-- C8, witness: both extractors applied to a concrete anchor-free text. -/
theorem c8_amended_toc_anchor_absent_witness :
    extract_toc_v7_method "hello world, just prose".toList = [] ∧
    extract_toc_v13 "hello world, just prose".toList = [] := by
  constructor
  · refine c8_amended_toc_anchor_absent.1 "hello world, just prose".toList ?_
    intro ind hind idx h
    fin_cases hind <;> rw [show findSub _ _ = none from by decide] at h <;>
      exact absurd h (by simp)
  · exact c8_amended_toc_anchor_absent.2.1 "hello world, just prose".toList
      (by decide)

/-- C8, counterexample: a text containing no "contents" (hence no "table of
contents") anywhere, yet the hybrid extractor finds its additional anchor
"chapters" and returns a non-empty entry list — the claim's premise holds
and its conclusion fails. -/
theorem c8_anchor_set_counterexample :
    findSub "contents".toList ("chapters\n3 Alpha Beta 7\n".toList.map lowerA) =
      none ∧
    extract_toc_v7_method "chapters\n3 Alpha Beta 7\n".toList =
      [⟨"3".toList, "3 Alpha Beta".toList, "Alpha Beta".toList⟩] := by
  constructor
  · decide
  · decide

/-- Forty five-character words — a 200-character span. -/
def c3Text40 : Str := (String.join (List.replicate 40 "word ")).toList

/-- A 600-character single "word". -/
def c3LongWord : Str := List.replicate 600 'a'

/-- A concrete stand-in for `_find_chapter_in_text` locating the two test
entries at offsets 0 and 200. -/
def c3Find : Str → Str → Nat → Option Nat := fun t _ _ =>
  if t = "1 Alpha".toList then some 0
  else if t = "2 Beta".toList then some 200 else none

/-- The two test TOC entries for the hybrid minimum-length run. -/
def c3Entries : List TocEntryH :=
  [⟨"1".toList, "1 Alpha".toList, "Alpha".toList⟩,
   ⟨"2".toList, "2 Beta".toList, "Beta".toList⟩]

set_option maxRecDepth 40000 in
/-- C3, amended: the hybrid splitter's accepted output contains no chapter
whose *word count* is below `min_chapter_length` (for any body search
`find`), and the word count is `len(content.split())`; the V7 splitter
filters on the *character* count of the stripped span instead.  In both,
a 40-word span of fewer than 500 characters between two matched entries
is dropped. -/
theorem c3_amended_min_length_filter :
    (∀ (find : Str → Str → Nat → Option Nat) (toc_chapters : List TocEntryH)
        (text : Str) (minLen : Nat) (ch : HybridChapter),
      ch ∈ locate_and_validate_chapters find toc_chapters text minLen →
        minLen ≤ ch.word_count ∧ ch.word_count = wordCount ch.content) ∧
    (∀ (st : SmartChapterSplitterV7) (ps : List (Str × Nat)) (ch : Str × Str),
      ch ∈ split_chapters_v7 st ps → st.min_chapter_length ≤ ch.2.length) ∧
    split_chapters_v7 ⟨c3Text40, 500, 3000⟩
      [("1 Alpha".toList, 0), ("2 Beta".toList, 200)] = [] ∧
    locate_and_validate_chapters c3Find c3Entries c3Text40 500 = [] := by
  refine ⟨?_, ?_, ?_, ?_⟩
  · intro find toc_chapters text minLen ch hch
    unfold locate_and_validate_chapters at hch
    split at hch
    · exact absurd hch (by simp)
    · exact locateAndValidateGo_min find toc_chapters text minLen
        (find_toc_end text) toc_chapters 0 ch hch
  · intro st ps ch hch
    exact assembleV7_min_length st _ ch hch
  · decide
  · decide

set_option maxRecDepth 40000 in
/-- C3, witness: the V7 character-count guarantee at a concrete accepted
chapter. -/
theorem c3_amended_min_length_filter_witness :
    (500 : Nat) ≤ (("1 Alpha".toList, c3LongWord) : Str × Str).2.length :=
  c3_amended_min_length_filter.2.1 ⟨c3LongWord, 500, 3000⟩
    [("1 Alpha".toList, 0)] ("1 Alpha".toList, c3LongWord) (by decide)

set_option maxRecDepth 40000 in
/-- C3, counterexample: the V7 assembler accepts a 600-character span whose
word count is 1 — far below `minChapterLength = 500` — because its filter
compares characters, not words. -/
theorem c3_word_count_counterexample :
    split_chapters_v7 ⟨c3LongWord, 500, 3000⟩ [("1 Alpha".toList, 0)] =
      [("1 Alpha".toList, c3LongWord)] ∧
    wordCount c3LongWord = 1 ∧ 1 < 500 := by
  refine ⟨?_, ?_, ?_⟩
  · decide
  · decide
  · decide

instance : IsTotal (Str × Nat) (fun a b => a.2 ≤ b.2) :=
  ⟨fun a b => Nat.le_total a.2 b.2⟩

instance : IsTrans (Str × Nat) (fun a b => a.2 ≤ b.2) :=
  ⟨fun _ _ _ h1 h2 => Nat.le_trans h1 h2⟩

/-- C7, amended: the V7 assembler sorts located chapters by position and
assigns contiguous spans — each span ends where the next begins and the
last ends at end of document — and concatenating the *raw* span slices
reconstructs the text from the first chapter's start.  The accepted list,
however, carries `strip()`ed slices and drops short spans
(`assembleV7_eq`), so concatenating the accepted *contents* is lossy. -/
theorem c7_amended_contiguous_spans :
    (∀ (st : SmartChapterSplitterV7) (ps : List (Str × Nat)),
      (spansOf st.text.length
        (List.insertionSort (fun a b => a.2 ≤ b.2) ps)).Chain'
        (fun a b => a.2.2 = b.2.1)) ∧
    (∀ (st : SmartChapterSplitterV7) (ps : List (Str × Nat))
        (x : Str × Nat × Nat),
      (spansOf st.text.length
          (List.insertionSort (fun a b => a.2 ≤ b.2) ps)).getLast? = some x →
        x.2.2 = st.text.length) ∧
    (∀ (st : SmartChapterSplitterV7) (ps : List (Str × Nat)) (t : Str)
        (p : Nat) (tl : List (Str × Nat)),
      List.insertionSort (fun a b => a.2 ≤ b.2) ps = (t, p) :: tl →
        ((spansOf st.text.length ((t, p) :: tl)).map
          (fun s => slice s.2.1 s.2.2 st.text)).flatten = st.text.drop p) ∧
    (∀ (st : SmartChapterSplitterV7) (ps : List (Str × Nat)),
      split_chapters_v7 st ps =
        ((spansOf st.text.length
            (List.insertionSort (fun a b => a.2 ≤ b.2) ps)).map
          (fun s => (s.1, stripA (slice s.2.1 s.2.2 st.text)))).filter
          (fun c => decide (st.min_chapter_length ≤ c.2.length))) := by
  refine ⟨?_, ?_, ?_, ?_⟩
  · intro st ps
    exact spansOf_chain _ _
  · intro st ps x h
    exact spansOf_getLast _ _ x h
  · intro st ps t p tl hsort
    have hsorted : List.Chain' (fun a b : Str × Nat => a.2 ≤ b.2)
        ((t, p) :: tl) := by
      rw [← hsort]
      exact (List.sorted_insertionSort _ ps).chain'
    exact spansOf_join st.text t p tl hsorted
  · intro st ps
    exact assembleV7_eq st _

/-- The state used by the C7 witness. -/
def c7St : SmartChapterSplitterV7 := ⟨"aaaa  \nbbbbbbbb\ncc".toList, 4, 3000⟩

/-- C7, witness: the raw-slice reconstruction applied to a concrete
(unsorted) located list. -/
theorem c7_amended_contiguous_spans_witness :
    ((spansOf c7St.text.length
        ([("A".toList, 0), ("B".toList, 7)] : List (Str × Nat))).map
      (fun s => slice s.2.1 s.2.2 c7St.text)).flatten = c7St.text.drop 0 :=
  c7_amended_contiguous_spans.2.2.1 c7St [("B".toList, 7), ("A".toList, 0)]
    "A".toList 0 [("B".toList, 7)] (by decide)

/-- The text of the C7 counterexample. -/
def c7Text : Str := "Aa\n\nBb cc ".toList

/-- C7, counterexample: the accepted chapters' contents are stripped
slices, so their concatenation does not reconstruct the original text
between the first chapter's start (offset 0) and the document end — the
whitespace at the span boundaries is gone. -/
theorem c7_lossless_counterexample :
    ((split_chapters_simple c7Text [(0, "1 X".toList), (4, "2 Y".toList)]).map
      (fun r => r.2.2.1)).flatten ≠ c7Text := by decide

/-- A body in which "PROLOGUE" is a running header on four consecutive
pages, followed by one prose-prefixed "Prologue" section. -/
def c6HeaderText : Str :=
  "PROLOGUE\nHEADER TEXT ALL CAPS\nPROLOGUE\nMORE HEADER CAPS\nPROLOGUE\nSTILL CAPS HEADER\nPROLOGUE\nCAPS AGAIN HERE\nPrologue\nIt was a quiet morning and nothing stirred in the house.\n".toList

/-- The ordinal-less TOC entry for "Prologue". -/
def c6PrologueEntry : TocChapterV7 :=
  ⟨[], "Prologue".toList, "Prologue".toList, "prologue".toList,
    "Prologue".toList⟩

/-- A body where the first structural candidate for `12 / Once Upon a
Time` is followed by an ALL-CAPS line (a running header) and the second
by prose. -/
def c6SkipText : Str :=
  "xxxxx\n12\nOnce Upon a Time\nALL CAPS HEADER LINE\nzz\n12\nOnce Upon a Time\nIt was lovely prose.\n".toList

/-- C6, amended: the page-header filter applies to the candidates of the
ordinal strategies (1-3): every position those loops accept lies at or
after `toc_end` and the first line of the 100 characters after its match
is not uppercase-dominated (`is_page_header` examines only that first
line); rejected candidates are skipped and the scan continues past them,
as the concrete `c6SkipText` run shows (the header occurrence at offset 6
is skipped, the prose occurrence at 50 accepted).  The ordinal-less
strategy applies no header filter at all: on `c6HeaderText` the locator
returns offset 29 — a running-header occurrence. -/
theorem c6_amended_header_rejection :
    (∀ (st : SmartChapterSplitterV7) (number title : Str) (p : Nat),
      strategy1 st number title = some p →
        st.toc_end ≤ p ∧ ∃ e x,
          (matchStrat number (pLit title) (st.text.drop p)).map
            (fun r => (p + r.1, r.2)) = some (e, x) ∧
          is_page_header (slice e (e + 100) st.text) = false) ∧
    (∀ (st : SmartChapterSplitterV7) (number tnorm : Str) (p : Nat),
      strategy2 st number tnorm = some p →
        st.toc_end ≤ p ∧ ∃ e g,
          (matchStrat number pLine (st.text.drop p)).map
            (fun r => (p + r.1, r.2)) = some (e, g) ∧
          (normalize_for_comparison g == tnorm) = true ∧
          is_page_header (slice e (e + 100) st.text) = false) ∧
    (∀ (st : SmartChapterSplitterV7) (number title : Str) (p : Nat),
      strategy3 st number title = some p →
        st.toc_end ≤ p ∧ ∃ e x,
          (matchStrat number (pWords (pySplit title)) (st.text.drop p)).map
            (fun r => (p + r.1, r.2)) = some (e, x) ∧
          is_page_header (slice e (e + 100) st.text) = false) ∧
    strategy1 ⟨c6SkipText, 500, 3⟩ "12".toList "Once Upon a Time".toList =
      some 50 ∧
    find_chapter_in_body ⟨c6HeaderText, 500, 3000⟩ c6PrologueEntry =
      some 29 := by
  refine ⟨?_, ?_, ?_, by decide, by decide⟩
  · intro st number title p h
    unfold strategy1 at h
    obtain ⟨h1, e, x, hm, _, hh⟩ :=
      stratLoop_accepts_only_filtered st _ _ _ _ p h
    exact ⟨h1, e, x, hm, hh⟩
  · intro st number tnorm p h
    unfold strategy2 at h
    obtain ⟨h1, e, g, hm, hok, hh⟩ :=
      stratLoop_accepts_only_filtered st _ _ _ _ p h
    exact ⟨h1, e, g, hm, hok, hh⟩
  · intro st number title p h
    unfold strategy3 at h
    obtain ⟨h1, e, x, hm, _, hh⟩ :=
      stratLoop_accepts_only_filtered st _ _ _ _ p h
    exact ⟨h1, e, x, hm, hh⟩

/-- C6, witness: the strategy-1 filter property at the concrete accepted
position 50 of `c6SkipText`. -/
theorem c6_amended_header_rejection_witness :
    (⟨c6SkipText, 500, 3⟩ : SmartChapterSplitterV7).toc_end ≤ 50 ∧
    ∃ e x, (matchStrat "12".toList (pLit "Once Upon a Time".toList)
        ((⟨c6SkipText, 500, 3⟩ : SmartChapterSplitterV7).text.drop 50)).map
        (fun r => (50 + r.1, r.2)) = some (e, x) ∧
      is_page_header (slice e (e + 100)
        (⟨c6SkipText, 500, 3⟩ : SmartChapterSplitterV7).text) = false :=
  c6_amended_header_rejection.1 ⟨c6SkipText, 500, 3⟩ "12".toList
    "Once Upon a Time".toList 50 (by decide)

/-- C6, counterexample: for the ordinal-less entry "Prologue" on
`c6HeaderText`, the locator returns offset 29 — the newline before the
second running-header "PROLOGUE" (the ALL-CAPS text that follows it is
never inspected) — not the prose-prefixed occurrence at offset 107,
contradicting the claim that the header occurrences are rejected. -/
theorem c6_prologue_header_counterexample :
    find_chapter_in_body ⟨c6HeaderText, 500, 3000⟩ c6PrologueEntry =
      some 29 ∧
    (29 : Nat) ≠ 107 ∧
    matchLit false "PROLOGUE".toList (c6HeaderText.drop 30) = true ∧
    matchLit false "Prologue\nIt was".toList (c6HeaderText.drop 108) = true := by
  refine ⟨by decide, by decide, by decide, by decide⟩

end ABS
